import Mathlib

/-!
Shallow embedding of the lwmesh halfedge-mesh library (src/handle.rs,
src/mesh.rs, src/mesh_iterator.rs).

Conventions of the embedding:

* A handle value (`Vertex`, `Halfedge`, `Edge`, `Face` in the source) is an
  `Option Nat` (`Hnd` below): `some i` is a valid handle carrying index `i`,
  `none` is `BaseHandle::invalid()` (src/handle.rs, `index_ : Option<usize>`).
  Handle equality is `Option` equality, exactly as `PartialEq` on `BaseHandle`
  compares `index_`.
* Fallible execution is modelled in the monad `M := Option`: a result of
  `none` at the outer `M` layer means the Rust program does not return
  normally (an out-of-range or invalid-handle index panics, a failed
  `assert!` panics, or a loop diverges — loops are given fuel and fuel
  exhaustion also maps to `none`).  All claims about return values are
  therefore conditional on the `M`-computation producing `some`.
* The connectivity records and the property container live in the source
  files `connectivity.rs` and `property.rs`, which are not part of the
  provided sources; they are modelled from the spec (§3, §4.2, §4.3) where
  marked.
-/

namespace LwMesh

set_option maxHeartbeats 1600000

/-- The panic/divergence monad: `none` means the Rust code panics or
diverges instead of returning. -/
abbrev M (α : Type) : Type := Option α

/-- A handle value as stored at runtime: `some i` = valid handle with index
`i`, `none` = `BaseHandle::invalid()` (src/handle.rs lines 13-44). -/
abbrev Hnd : Type := Option Nat

/-- Modelled from the spec (§3 "Vertex connectivity (VConn)", file
`connectivity.rs` is missing from src/): one optional outgoing halfedge,
created with halfedge = none. -/
structure VertexConnectivity where
  halfedge_ : Hnd
deriving Repr, DecidableEq

def VertexConnectivity.new : VertexConnectivity := ⟨none⟩

/-- Modelled from the spec (§3 "Halfedge connectivity (HConn)", file
`connectivity.rs` is missing from src/): target vertex, optional incident
face, next and prev halfedge in the face cycle.  The non-optional Rust
fields (`vertex_`, `next_halfedge_`, `prev_halfedge_`) start out as invalid
handles, which `Hnd` represents as `none`. -/
structure HalfedgeConnectivity where
  vertex_ : Hnd
  face_ : Option Nat
  next_halfedge_ : Hnd
  prev_halfedge_ : Hnd
deriving Repr, DecidableEq

def HalfedgeConnectivity.new : HalfedgeConnectivity := ⟨none, none, none, none⟩

/-- Modelled from the spec (§3 "Face connectivity (FConn)", file
`connectivity.rs` is missing from src/): one halfedge on the face's
boundary cycle, invalid until `add_face` sets it. -/
structure FaceConnectivity where
  halfedge_ : Hnd
deriving Repr, DecidableEq

def FaceConnectivity.new : FaceConnectivity := ⟨none⟩

/-- `Topology` (src/mesh.rs lines 7-11): the three connectivity vectors. -/
structure Topology where
  vconn_ : List VertexConnectivity
  hconn_ : List HalfedgeConnectivity
  fconn_ : List FaceConnectivity
deriving Repr, DecidableEq

/-- `Topology::new` (src/mesh.rs lines 14-20). -/
def Topology.new : Topology := ⟨[], [], []⟩

/-- `Topology::n_vertices` (src/mesh.rs line 34). -/
def Topology.n_vertices (t : Topology) : Nat := t.vconn_.length

/-- `Topology::n_faces` (src/mesh.rs line 54). -/
def Topology.n_faces (t : Topology) : Nat := t.fconn_.length

/-- `Topology::n_edges` (src/mesh.rs line 74). -/
def Topology.n_edges (t : Topology) : Nat := t.hconn_.length / 2

/-- `Topology::n_halfedges` (src/mesh.rs line 94). -/
def Topology.n_halfedges (t : Topology) : Nat := t.hconn_.length

/-- `Topology::face` (src/mesh.rs line 180): `hconn_[h].face_`; indexing
with an invalid or out-of-range handle panics. -/
def Topology.face (t : Topology) (h : Hnd) : M (Option Nat) := do
  let i ← h
  let c ← t.hconn_.get? i
  pure c.face_

/-- `Topology::halfedge` (src/mesh.rs line 201): `vconn_[v].halfedge_`. -/
def Topology.halfedge (t : Topology) (v : Hnd) : M Hnd := do
  let i ← v
  let c ← t.vconn_.get? i
  pure c.halfedge_

/-- `Topology::edge_halfedge` (src/mesh.rs line 222): `Halfedge::new(e.idx()*2+i)`. -/
def Topology.edge_halfedge (_t : Topology) (e : Hnd) (i : Nat) : M Hnd := do
  let ei ← e
  pure (some (ei * 2 + i))

/-- `Topology::face_halfedge` (src/mesh.rs line 243): `fconn_[f].halfedge_`. -/
def Topology.face_halfedge (t : Topology) (f : Hnd) : M Hnd := do
  let i ← f
  let c ← t.fconn_.get? i
  pure c.halfedge_

/-- `Topology::edge` (src/mesh.rs line 265): `Edge::new(h.idx()/2)`. -/
def Topology.edge (_t : Topology) (h : Hnd) : M Hnd := do
  let i ← h
  pure (some (i / 2))

/-- `Topology::to_vertex` (src/mesh.rs line 286): `hconn_[h].vertex_`. -/
def Topology.to_vertex (t : Topology) (h : Hnd) : M Hnd := do
  let i ← h
  let c ← t.hconn_.get? i
  pure c.vertex_

/-- `Topology::next_halfedge` (src/mesh.rs line 332): `hconn_[h].next_halfedge_`. -/
def Topology.next_halfedge (t : Topology) (h : Hnd) : M Hnd := do
  let i ← h
  let c ← t.hconn_.get? i
  pure c.next_halfedge_

/-- `Topology::prev_halfedge` (src/mesh.rs line 357): `hconn_[h].prev_halfedge_`. -/
def Topology.prev_halfedge (t : Topology) (h : Hnd) : M Hnd := do
  let i ← h
  let c ← t.hconn_.get? i
  pure c.prev_halfedge_

/-- `Topology::from_vertex` (src/mesh.rs line 307): `to_vertex(prev_halfedge(h))`. -/
def Topology.from_vertex (t : Topology) (h : Hnd) : M Hnd := do
  t.to_vertex (← t.prev_halfedge h)

/-- `Topology::opposite_halfedge` (src/mesh.rs lines 379-386): flip between
`2e` and `2e+1`.  The source reads `h.idx()` and computes with it, which
presumes a valid handle; an invalid handle maps to a panic. -/
def Topology.opposite_halfedge (_t : Topology) (h : Hnd) : M Hnd := do
  let idx ← h
  if idx % 2 = 1 then pure (some (idx - 1)) else pure (some (idx + 1))

/-- `Topology::cw_rotated_halfedge` (src/mesh.rs line 406):
`next_halfedge(opposite_halfedge(h))`. -/
def Topology.cw_rotated_halfedge (t : Topology) (h : Hnd) : M Hnd := do
  t.next_halfedge (← t.opposite_halfedge h)

/-- `Topology::is_boundary_halfedge` (src/mesh.rs line 136): `face(h).is_none()`. -/
def Topology.is_boundary_halfedge (t : Topology) (h : Hnd) : M Bool := do
  pure (← t.face h).isNone

/-- `Topology::is_boundary_vertex` (src/mesh.rs lines 109-115). -/
def Topology.is_boundary_vertex (t : Topology) (v : Hnd) : M Bool := do
  match (← t.halfedge v) with
  | some h => do pure (← t.face (some h)).isNone
  | none => pure true

/-- `Topology::is_boundary_edge` (src/mesh.rs lines 159-161). -/
def Topology.is_boundary_edge (t : Topology) (e : Hnd) : M Bool := do
  let f0 ← t.face (← t.edge_halfedge e 0)
  let f1 ← t.face (← t.edge_halfedge e 1)
  pure (f0.isNone || f1.isNone)

/-- The loop body of `Topology::find_halfedge` (src/mesh.rs lines 437-441),
with fuel; fuel exhaustion models divergence. -/
def Topology.find_halfedge_loop (t : Topology) (endv h_end : Hnd) :
    Hnd → Nat → M (Option Nat)
  | _, 0 => none
  | h, fuel+1 => do
    if (← t.to_vertex h) = endv then pure h
    else do
      let h' ← t.cw_rotated_halfedge h
      if h' = h_end then pure none
      else t.find_halfedge_loop endv h_end h' fuel

/-- `Topology::find_halfedge` (src/mesh.rs lines 430-443). -/
def Topology.find_halfedge (t : Topology) (start endv : Hnd) (fuel : Nat) :
    M (Option Nat) := do
  match (← t.halfedge start) with
  | none => pure none
  | some x => t.find_halfedge_loop endv (some x) (some x) fuel

/-- `Topology::set_halfedge` (src/mesh.rs lines 446-448):
`vconn_[v].halfedge_ = Some(h)`.  Note: the stored handle `h` is kept as is;
a (never-occurring in well-formed flows) `Some(invalid)` is collapsed to the
absent value. -/
def Topology.set_halfedge (t : Topology) (v : Hnd) (h : Hnd) : M Topology := do
  let i ← v
  let c ← t.vconn_.get? i
  let _ := c
  pure { t with vconn_ := t.vconn_.set i ⟨h⟩ }

/-- `Topology::set_face` (src/mesh.rs lines 451-453): `hconn_[h].face_ = Some(f)`. -/
def Topology.set_face (t : Topology) (h : Hnd) (f : Nat) : M Topology := do
  let i ← h
  let c ← t.hconn_.get? i
  pure { t with hconn_ := t.hconn_.set i { c with face_ := some f } }

/-- `Topology::set_vertex` (src/mesh.rs lines 456-458): `hconn_[h].vertex_ = v`. -/
def Topology.set_vertex (t : Topology) (h : Hnd) (v : Hnd) : M Topology := do
  let i ← h
  let c ← t.hconn_.get? i
  pure { t with hconn_ := t.hconn_.set i { c with vertex_ := v } }

/-- `Topology::set_next_halfedge` (src/mesh.rs lines 461-464):
`hconn_[h].next_halfedge_ = nh; hconn_[nh].prev_halfedge_ = h`. -/
def Topology.set_next_halfedge (t : Topology) (h : Hnd) (nh : Hnd) : M Topology := do
  let i ← h
  let c ← t.hconn_.get? i
  let t1 : Topology := { t with hconn_ := t.hconn_.set i { c with next_halfedge_ := nh } }
  let j ← nh
  let c' ← t1.hconn_.get? j
  pure { t1 with hconn_ := t1.hconn_.set j { c' with prev_halfedge_ := h } }

/-- The loop of `Topology::adjust_outgoing_halfedge` (src/mesh.rs lines
474-481), with fuel. -/
def Topology.adjust_loop (t : Topology) (v hh : Hnd) : Hnd → Nat → M Topology
  | _, 0 => none
  | h, fuel+1 => do
    if (← t.is_boundary_halfedge h) then t.set_halfedge v h
    else do
      let h' ← t.cw_rotated_halfedge h
      if h' = hh then pure t
      else t.adjust_loop v hh h' fuel

/-- `Topology::adjust_outgoing_halfedge` (src/mesh.rs lines 467-482). -/
def Topology.adjust_outgoing_halfedge (t : Topology) (v : Hnd) (fuel : Nat) :
    M Topology := do
  match (← t.halfedge v) with
  | none => pure t
  | some x => t.adjust_loop v (some x) (some x) fuel

/-- Modelled from the spec (§4.2 `PropertyVec`, §4.3 `PropertyContainer`;
file `property.rs` is missing from src/): a per-entity-kind registry of
named properties.  For the row-count invariant I7 only the name and the row
count of each property matter, so each entry is a (name, row count) pair;
`push()` appends one default-valued row to every property. -/
structure PropertyContainer where
  props_ : List (String × Nat)
deriving Repr, DecidableEq

def PropertyContainer.new : PropertyContainer := ⟨[]⟩

/-- Modelled from the spec (§4.3): `push()` appends one row to every
property, keeping row counts synchronized. -/
def PropertyContainer.push (c : PropertyContainer) : PropertyContainer :=
  ⟨c.props_.map (fun p => (p.1, p.2 + 1))⟩

/-- `Properties` (src/mesh.rs lines 485-490). -/
structure Properties where
  vprop_ : PropertyContainer
  hprop_ : PropertyContainer
  eprop_ : PropertyContainer
  fprop_ : PropertyContainer
deriving Repr, DecidableEq

/-- `Properties::new` (src/mesh.rs lines 493-500). -/
def Properties.new : Properties :=
  ⟨PropertyContainer.new, PropertyContainer.new, PropertyContainer.new, PropertyContainer.new⟩

/-- `Mesh` (src/mesh.rs lines 629-632). -/
structure Mesh where
  topology : Topology
  properties : Properties
deriving Repr, DecidableEq

/-- `Mesh::new` (src/mesh.rs lines 644-649). -/
def Mesh.new : Mesh := ⟨Topology.new, Properties.new⟩

/-- `Mesh::add_vertex` (src/mesh.rs lines 755-759): push one vertex property
row and one vertex connectivity row, return the handle of the new row. -/
def Mesh.add_vertex (m : Mesh) : Mesh × Nat :=
  let m' : Mesh :=
    { m with
      properties := { m.properties with vprop_ := m.properties.vprop_.push }
      topology := { m.topology with vconn_ := m.topology.vconn_ ++ [VertexConnectivity.new] } }
  (m', m'.topology.vconn_.length - 1)

/-- `Mesh::add_vertices` (src/mesh.rs lines 773-785): n individual appends
(the capacity reservation has no observable effect on the state model). -/
def Mesh.add_vertices (m : Mesh) : Nat → Mesh × List Nat
  | 0 => (m, [])
  | n+1 =>
    let (m', v) := m.add_vertex
    let (m'', vs) := m'.add_vertices n
    (m'', v :: vs)

/-- `Mesh::new_edge` (src/mesh.rs lines 925-940): `assert!(start != end)`
(a failed assert panics), then push one edge property row, two halfedge
property rows, two halfedge connectivity rows, set the two target vertices,
and return the first new halfedge. -/
def Mesh.new_edge (m : Mesh) (start endv : Nat) : M (Mesh × Nat) := do
  if start = endv then none
  else do
    let props : Properties :=
      { m.properties with
        eprop_ := m.properties.eprop_.push
        hprop_ := m.properties.hprop_.push.push }
    let t0 : Topology :=
      { m.topology with hconn_ := m.topology.hconn_ ++ [HalfedgeConnectivity.new] }
    let h0 : Nat := t0.hconn_.length - 1
    let t1 : Topology := { t0 with hconn_ := t0.hconn_ ++ [HalfedgeConnectivity.new] }
    let h1 : Nat := t1.hconn_.length - 1
    let t2 ← t1.set_vertex (some h0) (some endv)
    let t3 ← t2.set_vertex (some h1) (some start)
    pure ({ topology := t3, properties := props }, h0)

/-- Phase 1 of `Mesh::add_face` (src/mesh.rs lines 811-821), the validity
pre-check loop over indices `0..n`: each vertex must be a boundary vertex,
and each pre-existing halfedge must be a boundary halfedge.  Returns the
built `hvec` and `new_hvec`; the inner `none` is the `return None` branch. -/
def addFacePre (t : Topology) (vs : List Nat) (n fuel : Nat) :
    List Nat → M (Option (List (Option Nat) × List Bool))
  | [] => pure (some ([], []))
  | i :: is => do
    let vi ← vs.get? i
    if !(← t.is_boundary_vertex (some vi)) then pure none
    else do
      let vii ← vs.get? ((i+1) % n)
      let hi ← t.find_halfedge (some vi) (some vii) fuel
      let newi := hi.isNone
      -- `!new_hvec[i] && !is_boundary_halfedge(hvec[i].unwrap())` with Rust's
      -- short-circuit: the halfedge is only inspected when it exists
      let bad ← match hi with
        | none => pure false
        | some hh => do pure !(← t.is_boundary_halfedge (some hh))
      if bad then pure none
      else do
        match (← addFacePre t vs n fuel is) with
        | none => pure none
        | some (hs, ns) => pure (some (hi :: hs, newi :: ns))

/-- The inner walk of the re-link pre-pass (src/mesh.rs lines 832-837):
advance `boundary_prev` by `opposite(next(·))` until it is a boundary
halfedge different from `inner_prev`. -/
def relinkWalk (t : Topology) (inner_prev : Hnd) : Hnd → Nat → M Hnd
  | _, 0 => none
  | bp, fuel+1 => do
    let bp' ← t.opposite_halfedge (← t.next_halfedge bp)
    if (← t.is_boundary_halfedge bp') && bp' ≠ inner_prev then pure bp'
    else relinkWalk t inner_prev bp' fuel

/-- One iteration of the re-link pre-pass (src/mesh.rs lines 824-851) at
corner `i`.  Result: `none` = panic (a failed `assert!` or an invalid
index), `some none` = the `return None` dead-end, `some g` = continue and
prepend the re-links queued at this corner. -/
def relinkStep (t : Topology) (n : Nat) (hvec : List (Option Nat))
    (newv : List Bool) (fuel i : Nat) :
    M (Option (List (Hnd × Hnd) → List (Hnd × Hnd))) := do
  let ii := (i+1) % n
  let ni ← newv.get? i
  let nii ← newv.get? ii
  if !ni && !nii then do
    let inner_prev ← hvec.get? i
    let inner_next ← hvec.get? ii
    if (← t.next_halfedge inner_prev) ≠ inner_next then do
      let outer_prev ← t.opposite_halfedge inner_next
      let bp ← relinkWalk t inner_prev outer_prev fuel
      let boundary_next ← t.next_halfedge bp
      if !(← t.is_boundary_halfedge bp) then none
      else if !(← t.is_boundary_halfedge boundary_next) then none
      else if boundary_next = inner_next then pure none
      else do
        let patch_start ← t.next_halfedge inner_prev
        let patch_end ← t.prev_halfedge inner_next
        pure (some (fun c =>
          (bp, patch_start) :: (patch_end, boundary_next) :: (inner_prev, inner_next) :: c))
    else pure (some id)
  else pure (some id)

/-- Phase 2 of `Mesh::add_face` (src/mesh.rs lines 823-851), the boundary
patch re-link pre-pass over indices `0..n`.  Produces the queued re-links
(`next_cache` entries); the inner `none` is the `return None` dead-end. -/
def addFaceRelink (t : Topology) (n : Nat) (hvec : List (Option Nat))
    (newv : List Bool) (fuel : Nat) : List Nat → M (Option (List (Hnd × Hnd)))
  | [] => pure (some [])
  | i :: is => do
    match (← relinkStep t n hvec newv fuel i) with
    | none => pure none
    | some g => do
      let rest ← addFaceRelink t n hvec newv fuel is
      pure (rest.map g)

/-- Phase 3 of `Mesh::add_face` (src/mesh.rs lines 854-860): create the
missing edges, replacing the corresponding `hvec` entries. -/
def addFaceEdges (m : Mesh) (vs : List Nat) (n : Nat) :
    List (Option Nat) → List Bool → List Nat → M (Mesh × List (Option Nat))
  | hvec, _, [] =>
    let _ := n
    pure (m, hvec)
  | hvec, newv, i :: is => do
    let ni ← newv.get? i
    if ni then do
      let ii := (i+1) % n
      let vi ← vs.get? i
      let vii ← vs.get? ii
      let (m', h0) ← m.new_edge vi vii
      addFaceEdges m' vs n (hvec.set i (some h0)) newv is
    else addFaceEdges m vs n hvec newv is

/-- The body of the `new_hvec[i] || new_hvec[ii]` branch of the setup loop
(src/mesh.rs lines 877-901): compute `outer_prev`/`outer_next`, set the
outgoing halfedge of `v` and queue the boundary re-links for the four
sub-cases on `(new[i], new[ii])`. -/
def setupLink (m : Mesh) (v : Hnd) (inner_prev inner_next : Nat) (ni nii : Bool)
    (cache : List (Hnd × Hnd)) : M (Topology × List (Hnd × Hnd)) := do
  let outer_prev ← m.topology.opposite_halfedge (some inner_next)
  let outer_next ← m.topology.opposite_halfedge (some inner_prev)
  if !nii then do
    let boundary_prev ← m.topology.prev_halfedge (some inner_next)
    let t' ← m.topology.set_halfedge v outer_next
    pure (t', cache ++ [(boundary_prev, outer_next)])
  else if !ni then do
    let boundary_next ← m.topology.next_halfedge (some inner_prev)
    let t' ← m.topology.set_halfedge v boundary_next
    pure (t', cache ++ [(outer_prev, boundary_next)])
  else do
    match (← m.topology.halfedge v) with
    | none => do
      let t' ← m.topology.set_halfedge v outer_next
      pure (t', cache ++ [(outer_prev, outer_next)])
    | some h => do
      let boundary_prev ← m.topology.prev_halfedge (some h)
      pure (m.topology,
        cache ++ [(boundary_prev, outer_next), (outer_prev, some h)])

/-- One iteration of the halfedge setup loop (src/mesh.rs lines 871-907)
at corner `i`: queue re-links, set the outgoing halfedge of `V[i+1 mod n]`,
set the face of the inner halfedge, and record the adjustment flag. -/
def setupStep (f : Nat) (vs : List Nat) (n : Nat) (hvec : List (Option Nat))
    (newv : List Bool) (m : Mesh) (cache : List (Hnd × Hnd)) (adj : List Bool)
    (i : Nat) : M (Mesh × List (Hnd × Hnd) × List Bool) := do
  let v ← vs.get? ((i+1) % n)
  let inner_prev ← (← hvec.get? i)
  let inner_next ← (← hvec.get? ((i+1) % n))
  let ni ← newv.get? i
  let nii ← newv.get? ((i+1) % n)
  if ni || nii then do
    let (t', cache') ← setupLink m (some v) inner_prev inner_next ni nii cache
    let cache'' := cache' ++ [(some inner_prev, some inner_next)]
    let t'' ← t'.set_face (some inner_prev) f
    pure ({ m with topology := t'' }, cache'', adj)
  else do
    let hv ← (← m.topology.halfedge (some v))
    let adj' := adj.set ((i+1) % n) (decide (hv = inner_next))
    let t'' ← m.topology.set_face (some inner_prev) f
    pure ({ m with topology := t'' }, cache, adj')

/-- Phase 4 of `Mesh::add_face` (src/mesh.rs lines 868-907), the halfedge
setup loop over indices `0..n`. -/
def addFaceSetup (f : Nat) (vs : List Nat) (n : Nat) (hvec : List (Option Nat))
    (newv : List Bool) :
    Mesh → List (Hnd × Hnd) → List Bool → List Nat →
    M (Mesh × List (Hnd × Hnd) × List Bool)
  | m, cache, adj, [] => pure (m, cache, adj)
  | m, cache, adj, i :: is => do
    let (m', cache', adj') ← setupStep f vs n hvec newv m cache adj i
    addFaceSetup f vs n hvec newv m' cache' adj' is

/-- Phase 5 of `Mesh::add_face` (src/mesh.rs lines 910-912): apply the
queued re-links in insertion order. -/
def commitCache (t : Topology) : List (Hnd × Hnd) → M Topology
  | [] => pure t
  | (a, b) :: rest => do commitCache (← t.set_next_halfedge a b) rest

/-- Phase 6 of `Mesh::add_face` (src/mesh.rs lines 915-919): run
`adjust_outgoing_halfedge` on every flagged vertex. -/
def adjustPhase (vs : List Nat) (adj : List Bool) (fuel : Nat) :
    Topology → List Nat → M Topology
  | t, [] => pure t
  | t, i :: is => do
    let ai ← adj.get? i
    if ai then do
      let vi ← vs.get? i
      adjustPhase vs adj fuel (← t.adjust_outgoing_halfedge (some vi) fuel) is
    else adjustPhase vs adj fuel t is

/-- `Mesh::add_face` (src/mesh.rs lines 803-922).  Returns
`some (none, m)` for the `return None` rejections (the state is the
unchanged input mesh, mirroring that no mutation happened on those paths),
`some (some f, m')` on success, and `none` for panic/divergence. -/
def Mesh.add_face (m : Mesh) (vs : List Nat) (fuel : Nat) : M (Option Nat × Mesh) := do
  match (← addFacePre m.topology vs vs.length fuel (List.range vs.length)) with
  | none => pure (none, m)
  | some (hvec, newv) =>
    match (← addFaceRelink m.topology vs.length hvec newv fuel (List.range vs.length)) with
    | none => pure (none, m)
    | some cache0 => do
      let (m1, hvec1) ← addFaceEdges m vs vs.length hvec newv (List.range vs.length)
      let m2 : Mesh :=
        { m1 with
          properties := { m1.properties with fprop_ := m1.properties.fprop_.push }
          topology := { m1.topology with fconn_ := m1.topology.fconn_ ++ [FaceConnectivity.new] } }
      let f : Nat := m2.topology.fconn_.length - 1
      let hlast ← (← hvec1.get? (vs.length - 1))
      let m3 : Mesh :=
        { m2 with topology :=
          { m2.topology with fconn_ := m2.topology.fconn_.set f ⟨some hlast⟩ } }
      let adj0 := List.replicate vs.length false
      let (m4, cache1, adj1) ← addFaceSetup f vs vs.length hvec1 newv m3 cache0 adj0 (List.range vs.length)
      let t5 ← commitCache m4.topology cache1
      let t6 ← adjustPhase vs adj1 fuel t5 (List.range vs.length)
      pure (some f, { m4 with topology := t6 })

/-- The circulation of `VerticesAroundFaceCirculator::next` after the first
emission (src/mesh_iterator.rs lines 162-174): stop when `curr` returns to
`end_`, otherwise emit `to_vertex(curr)` and advance by `next_halfedge`. -/
def vafLoop (t : Topology) (e : Hnd) : Hnd → Nat → M (List Hnd)
  | _, 0 => none
  | curr, fuel+1 => do
    if curr = e then pure []
    else do
      let v ← t.to_vertex curr
      let c' ← t.next_halfedge curr
      pure (v :: (← vafLoop t e c' fuel))

/-- Collecting the `vertices_around(f)` circulator of a face
(src/mesh_iterator.rs lines 155-174 and 250-257): `end_` and `curr_` start
at `face_halfedge(f)` with `active_ = false`, so the first `next` emits
unconditionally, then the loop of `vafLoop` runs. -/
def Topology.vertices_around_face (t : Topology) (f : Hnd) (fuel : Nat) :
    M (List Hnd) := do
  let e ← t.face_halfedge f
  let v ← t.to_vertex e
  let c ← t.next_halfedge e
  pure (v :: (← vafLoop t e c fuel))

/-- The advancing `while` in `FacesAround::faces_around`
(src/mesh_iterator.rs lines 355-358): skip cw past boundary halfedges. -/
def skipBoundary (t : Topology) : Hnd → Nat → M Hnd
  | _, 0 => none
  | h, fuel+1 => do
    if (← t.is_boundary_halfedge h) then skipBoundary t (← t.cw_rotated_halfedge h) fuel
    else pure h

/-- The inner advance of `FacesAroundVertexCirculator::next`
(src/mesh_iterator.rs lines 147-150): rotate cw at least once, until a
non-boundary halfedge is reached. -/
def favAdvance (t : Topology) : Hnd → Nat → M Hnd
  | _, 0 => none
  | curr, fuel+1 => do
    let c' ← t.cw_rotated_halfedge curr
    if !(← t.is_boundary_halfedge c') then pure c'
    else favAdvance t c' fuel

/-- The circulation of `FacesAroundVertexCirculator::next` after the first
emission (src/mesh_iterator.rs lines 135-153). -/
def favLoop (t : Topology) (e : Hnd) : Hnd → Nat → M (List (Option Nat))
  | _, 0 => none
  | curr, fuel+1 => do
    if curr = e then pure []
    else do
      let f ← t.face curr
      let fv ← f
      let c' ← favAdvance t curr fuel
      pure (some fv :: (← favLoop t e c' fuel))

/-- Collecting the `faces_around(v)` circulator (src/mesh_iterator.rs lines
346-367 together with lines 135-153): if `halfedge(v)` is absent the
iterator is empty; otherwise the start state is advanced past boundary
halfedges by the `while` loop, and the circulator then yields
`face(curr).unwrap()` and advances cw past boundary halfedges until it
returns to the start. -/
def Topology.faces_around_vertex (t : Topology) (v : Hnd) (fuel : Nat) :
    M (List (Option Nat)) := do
  match (← t.halfedge v) with
  | none => pure []
  | some x => do
    let h ← skipBoundary t (some x) fuel
    let f ← t.face h
    let fv ← f
    let c' ← favAdvance t h fuel
    pure (some fv :: (← favLoop t h c' fuel))

/-! Concrete scenario meshes used by several witnesses. -/

/-- The single-triangle mesh: three vertices, then `add_face([v0,v1,v2])`. -/
def triMesh : Mesh :=
  (((Mesh.new.add_vertices 3).1.add_face [0,1,2] 100).map (fun r => r.2)).getD Mesh.new

/-- The two-triangle mesh of the `add_face` unit test:
four vertices, `add_face([v0,v1,v2])`, then `add_face([v2,v1,v3])`. -/
def twoTriMesh : Mesh :=
  ((((((Mesh.new.add_vertices 4).1.add_face [0,1,2] 100).map (fun r => r.2)).getD
        Mesh.new).add_face [2,1,3] 100).map (fun r => r.2)).getD Mesh.new

/-- The mesh obtained from `triMesh` by inserting the orientation-reversed
face `[v2,v1,v0]`. -/
def revTriMesh : Mesh :=
  ((triMesh.add_face [2,1,0] 100).map (fun r => r.2)).getD Mesh.new

/-- Soundness of the `add_face` pre-check loop (src/mesh.rs lines 811-821):
if the pre-pass accepts, then every checked index had a boundary vertex and
any halfedge found between consecutive vertices was a boundary halfedge. -/
theorem addFacePre_sound (t : Topology) (vs : List Nat) (n fuel : Nat) :
    ∀ (is : List Nat) (r : List (Option Nat) × List Bool),
      addFacePre t vs n fuel is = some (some r) →
      ∀ i ∈ is, ∀ vi, vs.get? i = some vi →
        t.is_boundary_vertex (some vi) = some true ∧
        ∀ vii, vs.get? ((i+1) % n) = some vii →
          ∀ h, t.find_halfedge (some vi) (some vii) fuel = some (some h) →
            t.is_boundary_halfedge (some h) = some true := by
  intro is
  induction is with
  | nil => intro r _ i hi; cases hi
  | cons j js ih =>
    intro r hpre i hi vi hvi
    unfold addFacePre at hpre
    simp only [Option.bind_eq_bind, Option.bind_eq_some] at hpre
    obtain ⟨vj, hvj, hpre⟩ := hpre
    obtain ⟨b, hb, hpre⟩ := hpre
    cases b with
    | false => simp at hpre
    | true =>
      simp only [Bool.not_true, Bool.false_eq_true, if_false] at hpre
      simp only [Option.bind_eq_some] at hpre
      obtain ⟨vjj, hvjj, hpre⟩ := hpre
      obtain ⟨hj, hfind, hpre⟩ := hpre
      cases hj with
      | none =>
        simp only [Option.pure_def, Option.some_bind, Bool.false_eq_true, if_false,
          Option.bind_eq_some] at hpre
        obtain ⟨rr, hrec, hpre⟩ := hpre
        cases rr with
        | none => simp at hpre
        | some rr' =>
          rcases List.mem_cons.mp hi with hij | hijs
          · subst hij
            have hvivj : vi = vj := by rw [hvi] at hvj; exact Option.some.inj hvj
            subst hvivj
            refine ⟨hb, ?_⟩
            intro vii hvii h hfind2
            have hveq : vjj = vii := by rw [hvii] at hvjj; exact (Option.some.inj hvjj).symm
            subst hveq
            rw [hfind] at hfind2
            exact absurd (Option.some.inj hfind2) (by simp)
          · exact ih rr' hrec i hijs vi hvi
      | some hh =>
        simp only [Option.bind_eq_bind, Option.bind_eq_some, Option.pure_def,
          Option.some.injEq] at hpre
        obtain ⟨x, hx, hpre⟩ := hpre
        obtain ⟨y, hy, hpre⟩ := hpre
        cases x with
        | false => subst hy; simp at hpre
        | true =>
          subst hy
          simp only [Bool.not_true, Bool.false_eq_true, if_false, Option.bind_eq_some] at hpre
          obtain ⟨rr, hrec, hpre⟩ := hpre
          cases rr with
          | none => simp at hpre
          | some rr' =>
            rcases List.mem_cons.mp hi with hij | hijs
            · subst hij
              have hvivj : vi = vj := by rw [hvi] at hvj; exact Option.some.inj hvj
              subst hvivj
              refine ⟨hb, ?_⟩
              intro vii hvii h hfind2
              have hveq : vjj = vii := by rw [hvii] at hvjj; exact (Option.some.inj hvjj).symm
              subst hveq
              rw [hfind] at hfind2
              have hsome : some hh = some h := Option.some.inj hfind2
              have hhh : hh = h := Option.some.inj hsome
              subst hhh
              exact hx
            · exact ih rr' hrec i hijs vi hvi

/-- Helper: the `return None` paths of `add_face` hand back the input mesh. -/
theorem add_face_rejected_eq (m : Mesh) (vs : List Nat)
    (fuel : Nat) (m' : Mesh) (h : m.add_face vs fuel = some (none, m')) :
    m' = m := by
  unfold Mesh.add_face at h
  cases h1 : addFacePre m.topology vs vs.length fuel (List.range vs.length) with
  | none => rw [h1] at h; simp at h
  | some r1 =>
    rw [h1] at h
    cases r1 with
    | none =>
      simp at h
      exact h.symm
    | some p =>
      obtain ⟨hvec, newv⟩ := p
      simp only [Option.bind_eq_bind, Option.some_bind] at h
      cases h2 : addFaceRelink m.topology vs.length hvec newv fuel (List.range vs.length) with
      | none => rw [h2] at h; simp at h
      | some r2 =>
        rw [h2] at h
        cases r2 with
        | none =>
          simp at h
          exact h.symm
        | some cache0 =>
          simp only [Option.bind_eq_bind, Option.some_bind, Option.bind_eq_some,
            Option.pure_def, Option.some.injEq, Prod.mk.injEq] at h
          obtain ⟨⟨m1, hvec1⟩, _, h⟩ := h
          obtain ⟨a2, _, h⟩ := h
          obtain ⟨a3, _, h⟩ := h
          obtain ⟨⟨m4, cache1, adj1⟩, _, h⟩ := h
          obtain ⟨t5, _, h⟩ := h
          obtain ⟨t6, _, h⟩ := h
          exact absurd h.1 (by simp)

/-- Claim C1: whenever `add_face` returns `None`, the mesh is observably
unchanged — the returned state equals the input state in every connectivity
record, property row and entity count (here: the whole `Mesh` value is
unchanged). -/
theorem add_face_none_leaves_mesh_unchanged (m : Mesh) (vs : List Nat)
    (fuel : Nat) (m' : Mesh) (h : m.add_face vs fuel = some (none, m')) :
    m' = m :=
  add_face_rejected_eq m vs fuel m' h

/-- Witness for C1 at a concrete input: re-adding the face `[2,1,3]` to the
two-triangle mesh is rejected and returns the unchanged mesh. -/
theorem add_face_none_leaves_mesh_unchanged_witness :
    twoTriMesh.add_face [2,1,3] 100 = some (none, twoTriMesh) ∧ twoTriMesh = twoTriMesh :=
  ⟨by decide,
   add_face_none_leaves_mesh_unchanged twoTriMesh [2,1,3] 100 twoTriMesh (by decide)⟩

/-- Claim C2: `add_face` returns `None` whenever some input vertex `V[i]` is
not a boundary vertex, or an existing halfedge from `V[i]` to
`V[(i+1) mod n]` found by `find_halfedge` is not a boundary halfedge.
(If the call returns at all, the returned face is `none`.) -/
theorem add_face_rejects_invalid_input (m : Mesh) (vs : List Nat)
    (fuel i vi vii : Nat) (res : Option Nat) (m' : Mesh)
    (hvi : vs.get? i = some vi)
    (hvii : vs.get? ((i+1) % vs.length) = some vii)
    (hbad : m.topology.is_boundary_vertex (some vi) = some false ∨
      ∃ h, m.topology.find_halfedge (some vi) (some vii) fuel = some (some h) ∧
        m.topology.is_boundary_halfedge (some h) = some false)
    (hr : m.add_face vs fuel = some (res, m')) : res = none := by
  cases res with
  | none => rfl
  | some f =>
    exfalso
    unfold Mesh.add_face at hr
    cases h1 : addFacePre m.topology vs vs.length fuel (List.range vs.length) with
    | none => rw [h1] at hr; simp at hr
    | some r1 =>
      rw [h1] at hr
      cases r1 with
      | none => simp at hr
      | some r =>
        have himem : i ∈ List.range vs.length := by
          have hlt : i < vs.length := by
            by_contra hge
            rw [List.get?_eq_none.mpr (Nat.le_of_not_lt hge)] at hvi
            exact absurd hvi (by simp)
          exact List.mem_range.mpr hlt
        have hsound := addFacePre_sound m.topology vs vs.length fuel
          (List.range vs.length) r h1 i himem vi hvi
        rcases hbad with hb | ⟨h, hf, hbh⟩
        · rw [hsound.1] at hb
          exact absurd (Option.some.inj hb) (by simp)
        · have hbt := hsound.2 vii hvii h hf
          rw [hbt] at hbh
          exact absurd (Option.some.inj hbh) (by simp)

/-- Witness for C2 at a concrete input: on the two-triangle mesh, the edge
`v2→v1` carries halfedge 3 which already has a face, so re-adding `[2,1,3]`
returns `none`. -/
theorem add_face_rejects_invalid_input_witness :
    twoTriMesh.topology.is_boundary_halfedge (some 3) = some false ∧
    (none : Option Nat) = none :=
  ⟨by decide,
   add_face_rejects_invalid_input twoTriMesh [2,1,3] 100 0 2 1 none twoTriMesh
     (by decide) (by decide) (Or.inr ⟨3, by decide, by decide⟩) (by decide)⟩

/-- Claim C4, counterexample: on the single-triangle mesh (a mesh on which a
face over v0,v1,v2 was successfully added), the orientation-reversing
permutation `[v2,v1,v0]` is NOT rejected: `add_face` returns a new face and
the face count grows from 1 to 2. -/
theorem add_face_reversed_permutation_succeeds :
    (Mesh.new.add_vertices 3).1.add_face [0,1,2] 100 = some (some 0, triMesh) ∧
    ([2,1,0] : List Nat).Perm [0,1,2] ∧
    triMesh.add_face [2,1,0] 100 = some (some 1, revTriMesh) ∧
    triMesh.topology.n_faces = 1 ∧
    revTriMesh.topology.n_faces = 2 := by
  refine ⟨by decide, ?_, by decide, by decide, by decide⟩
  decide

/-- Claim C7: the single-triangle scenario.  Adding v0,v1,v2 and the face
`[v0,v1,v2]` yields `Some(f0)` with 3 vertices, 3 edges, 6 halfedges, 1
face; `find_halfedge(v0,v1)` is `Some(h01)` (here halfedge 0) with
`to = v1`, `from = v0`, `face = f0`; and `opposite(h01)` has no face. -/
theorem single_triangle_scenario :
    (Mesh.new.add_vertices 3).1.add_face [0,1,2] 100 = some (some 0, triMesh) ∧
    triMesh.topology.n_vertices = 3 ∧
    triMesh.topology.n_edges = 3 ∧
    triMesh.topology.n_halfedges = 6 ∧
    triMesh.topology.n_faces = 1 ∧
    triMesh.topology.find_halfedge (some 0) (some 1) 100 = some (some 0) ∧
    triMesh.topology.to_vertex (some 0) = some (some 1) ∧
    triMesh.topology.from_vertex (some 0) = some (some 0) ∧
    triMesh.topology.face (some 0) = some (some 0) ∧
    triMesh.topology.opposite_halfedge (some 0) = some (some 1) ∧
    triMesh.topology.face (some 1) = some none := by
  decide

/-- Claim C9: for a halfedge index below `n_halfedges`, `opposite` flips the
least-significant bit (`h XOR 1`), is an involution, and never fixes a
halfedge. -/
theorem opposite_halfedge_involution (t : Topology) (h : Nat)
    (_hh : h < t.n_halfedges) :
    t.opposite_halfedge (some h) = some (some (h ^^^ 1)) ∧
    (do Topology.opposite_halfedge t (← t.opposite_halfedge (some h))) = some (some h) ∧
    t.opposite_halfedge (some h) ≠ some (some h) := by
  have heven : ∀ k : Nat, (2*k) ^^^ 1 = 2*k+1 := by
    intro k
    apply Nat.eq_of_testBit_eq
    intro i
    cases i with
    | zero => simp [Nat.testBit_zero, Nat.mul_add_mod, Nat.xor_mod_two_eq]
    | succ j =>
      rw [Nat.testBit_succ, Nat.testBit_succ, Nat.xor_div_two]
      simp [Nat.mul_add_div]
  have hodd : ∀ k : Nat, (2*k+1) ^^^ 1 = 2*k := by
    intro k
    apply Nat.eq_of_testBit_eq
    intro i
    cases i with
    | zero =>
      simp [Nat.testBit_zero, Nat.xor_mod_two_eq, Nat.mul_add_mod]
      omega
    | succ j =>
      rw [Nat.testBit_succ, Nat.testBit_succ, Nat.xor_div_two]
      simp [Nat.mul_add_div]
  rcases Nat.even_or_odd h with ⟨k, hk⟩ | ⟨k, hk⟩
  · have h2k : h = 2*k := by omega
    subst h2k
    have hm : (2*k) % 2 = 0 := by omega
    have hm1 : (2*k+1) % 2 = 1 := by omega
    refine ⟨?_, ?_, ?_⟩
    · simp [Topology.opposite_halfedge, hm, heven k]
    · simp [Topology.opposite_halfedge, Option.bind_eq_bind, hm, hm1]
    · simp [Topology.opposite_halfedge, hm]
  · have h2k : h = 2*k+1 := by omega
    subst h2k
    have hm : (2*k+1) % 2 = 1 := by omega
    have hm0 : (2*k) % 2 = 0 := by omega
    refine ⟨?_, ?_, ?_⟩
    · simp [Topology.opposite_halfedge, hm, hodd k]
    · simp [Topology.opposite_halfedge, Option.bind_eq_bind, hm, hm0]
    · simp [Topology.opposite_halfedge, hm]

/-- Witness for C9 at a concrete input: halfedge 2 of the single-triangle
mesh. -/
theorem opposite_halfedge_involution_witness :
    2 < triMesh.topology.n_halfedges ∧
    triMesh.topology.opposite_halfedge (some 2) = some (some (2 ^^^ 1)) :=
  ⟨by decide, (opposite_halfedge_involution triMesh.topology 2 (by decide)).1⟩

/-- Claim C10: `new_edge(v,v)` fails its assertion and panics rather than
returning a recoverable error, for every mesh state; consequently
`add_face` with two equal consecutive vertices that are not joined by a
halfedge panics (models as `none` at the outer layer, not as a `None`
return) — demonstrated on the canonical input `[v0,v0,v1]`. -/
theorem new_edge_self_loop_panics :
    (∀ (m : Mesh) (v : Nat), m.new_edge v v = none) ∧
    (Mesh.new.add_vertices 2).1.add_face [0,0,1] 100 = none := by
  constructor
  · intro m v
    simp [Mesh.new_edge]
  · decide

def PropertyContainer.rowsEq (c : PropertyContainer) (k : Nat) : Prop :=
  ∀ p ∈ c.props_, p.2 = k

instance (c : PropertyContainer) (k : Nat) : Decidable (c.rowsEq k) :=
  List.decidableBAll _ _

/-- Invariant I7 (spec §3): every named property of each entity kind has
exactly as many rows as there are entities of that kind, halfedges counting
as two per edge. -/
def I7 (m : Mesh) : Prop :=
  m.properties.vprop_.rowsEq m.topology.n_vertices ∧
  m.properties.hprop_.rowsEq m.topology.n_halfedges ∧
  m.properties.eprop_.rowsEq m.topology.n_edges ∧
  m.properties.fprop_.rowsEq m.topology.n_faces ∧
  m.topology.n_halfedges = 2 * m.topology.n_edges

instance (m : Mesh) : Decidable (I7 m) := by
  unfold I7
  infer_instance

theorem PropertyContainer.rowsEq_push {c : PropertyContainer} {k : Nat}
    (h : c.rowsEq k) : c.push.rowsEq (k+1) := by
  intro p hp
  simp only [PropertyContainer.push, List.mem_map] at hp
  obtain ⟨q, hq, rfl⟩ := hp
  simp [h q hq]

theorem Topology.set_halfedge_spec (t : Topology) (v h : Hnd) (t' : Topology)
    (he : t.set_halfedge v h = some t') :
    t'.vconn_.length = t.vconn_.length ∧ t'.hconn_ = t.hconn_ ∧ t'.fconn_ = t.fconn_ := by
  unfold Topology.set_halfedge at he
  simp only [Option.bind_eq_bind, Option.bind_eq_some, Option.pure_def, Option.some.injEq] at he
  obtain ⟨i, hi, c, hc, he⟩ := he
  subst he
  simp

theorem Topology.set_face_spec (t : Topology) (h : Hnd) (f : Nat) (t' : Topology)
    (he : t.set_face h f = some t') :
    t'.hconn_.length = t.hconn_.length ∧ t'.vconn_ = t.vconn_ ∧ t'.fconn_ = t.fconn_ := by
  unfold Topology.set_face at he
  simp only [Option.bind_eq_bind, Option.bind_eq_some, Option.pure_def, Option.some.injEq] at he
  obtain ⟨i, hi, c, hc, he⟩ := he
  subst he
  simp

theorem Topology.set_vertex_spec (t : Topology) (h v : Hnd) (t' : Topology)
    (he : t.set_vertex h v = some t') :
    t'.hconn_.length = t.hconn_.length ∧ t'.vconn_ = t.vconn_ ∧ t'.fconn_ = t.fconn_ := by
  unfold Topology.set_vertex at he
  simp only [Option.bind_eq_bind, Option.bind_eq_some, Option.pure_def, Option.some.injEq] at he
  obtain ⟨i, hi, c, hc, he⟩ := he
  subst he
  simp

theorem Topology.set_next_halfedge_spec (t : Topology) (h nh : Hnd) (t' : Topology)
    (he : t.set_next_halfedge h nh = some t') :
    t'.hconn_.length = t.hconn_.length ∧ t'.vconn_ = t.vconn_ ∧ t'.fconn_ = t.fconn_ := by
  unfold Topology.set_next_halfedge at he
  simp only [Option.bind_eq_bind, Option.bind_eq_some, Option.pure_def, Option.some.injEq] at he
  obtain ⟨i, hi, c, hc, j, hj, c', hc', he⟩ := he
  subst he
  simp

theorem commitCache_spec :
    ∀ (cache : List (Hnd × Hnd)) (t t' : Topology),
      commitCache t cache = some t' →
      t'.hconn_.length = t.hconn_.length ∧ t'.vconn_ = t.vconn_ ∧ t'.fconn_ = t.fconn_ := by
  intro cache
  induction cache with
  | nil =>
    intro t t' he
    unfold commitCache at he
    simp at he
    subst he
    exact ⟨rfl, rfl, rfl⟩
  | cons e rest ih =>
    intro t t' he
    obtain ⟨a, b⟩ := e
    unfold commitCache at he
    simp only [Option.bind_eq_bind, Option.bind_eq_some] at he
    obtain ⟨t1, ht1, he⟩ := he
    have h1 := Topology.set_next_halfedge_spec t a b t1 ht1
    have h2 := ih t1 t' he
    exact ⟨h2.1.trans h1.1, h2.2.1.trans h1.2.1, h2.2.2.trans h1.2.2⟩

theorem Topology.adjust_loop_spec (t : Topology) (v hh : Hnd) :
    ∀ (fuel : Nat) (h : Hnd) (t' : Topology),
      t.adjust_loop v hh h fuel = some t' →
      t'.vconn_.length = t.vconn_.length ∧ t'.hconn_ = t.hconn_ ∧ t'.fconn_ = t.fconn_ := by
  intro fuel
  induction fuel with
  | zero => intro h t' he; simp [Topology.adjust_loop] at he
  | succ k ih =>
    intro h t' he
    unfold Topology.adjust_loop at he
    simp only [Option.bind_eq_bind, Option.bind_eq_some] at he
    obtain ⟨b, hb, he⟩ := he
    cases b with
    | true =>
      simp only [if_true] at he
      exact Topology.set_halfedge_spec t v h t' he
    | false =>
      simp only [Bool.false_eq_true, if_false, Option.bind_eq_some] at he
      obtain ⟨h', hrot, he⟩ := he
      by_cases heq : h' = hh
      · rw [if_pos heq] at he
        simp at he
        subst he
        exact ⟨rfl, rfl, rfl⟩
      · rw [if_neg heq] at he
        exact ih h' t' he

theorem Topology.adjust_outgoing_halfedge_spec (t : Topology) (v : Hnd) (fuel : Nat)
    (t' : Topology) (he : t.adjust_outgoing_halfedge v fuel = some t') :
    t'.vconn_.length = t.vconn_.length ∧ t'.hconn_ = t.hconn_ ∧ t'.fconn_ = t.fconn_ := by
  unfold Topology.adjust_outgoing_halfedge at he
  simp only [Option.bind_eq_bind, Option.bind_eq_some] at he
  obtain ⟨x, hx, he⟩ := he
  cases x with
  | none => simp at he; subst he; exact ⟨rfl, rfl, rfl⟩
  | some y => exact Topology.adjust_loop_spec t v (some y) fuel (some y) t' he

theorem adjustPhase_spec (vs : List Nat) (adj : List Bool) (fuel : Nat) :
    ∀ (is : List Nat) (t t' : Topology),
      adjustPhase vs adj fuel t is = some t' →
      t'.vconn_.length = t.vconn_.length ∧ t'.hconn_ = t.hconn_ ∧ t'.fconn_ = t.fconn_ := by
  intro is
  induction is with
  | nil =>
    intro t t' he
    unfold adjustPhase at he
    simp at he
    subst he
    exact ⟨rfl, rfl, rfl⟩
  | cons i rest ih =>
    intro t t' he
    unfold adjustPhase at he
    simp only [Option.bind_eq_bind, Option.bind_eq_some] at he
    obtain ⟨ai, hai, he⟩ := he
    cases ai with
    | true =>
      simp only [if_true, Option.bind_eq_some] at he
      obtain ⟨vi, hvi, he⟩ := he
      obtain ⟨t1, ht1, he⟩ := he
      have h1 := Topology.adjust_outgoing_halfedge_spec t (some vi) fuel t1 ht1
      have h2 := ih t1 t' he
      exact ⟨h2.1.trans h1.1, h2.2.1.trans h1.2.1, h2.2.2.trans h1.2.2⟩
    | false =>
      simp only [Bool.false_eq_true, if_false] at he
      exact ih t t' he

theorem setupLink_spec (m : Mesh) (v : Hnd) (inner_prev inner_next : Nat)
    (ni nii : Bool) (cache : List (Hnd × Hnd)) (t' : Topology)
    (cache' : List (Hnd × Hnd))
    (he : setupLink m v inner_prev inner_next ni nii cache = some (t', cache')) :
    t'.vconn_.length = m.topology.vconn_.length ∧
    t'.hconn_ = m.topology.hconn_ ∧ t'.fconn_ = m.topology.fconn_ := by
  unfold setupLink at he
  simp only [Option.bind_eq_bind, Option.bind_eq_some] at he
  obtain ⟨op, hop, he⟩ := he
  obtain ⟨onx, honx, he⟩ := he
  cases hnii : nii with
  | false =>
    rw [hnii] at he
    simp only [Bool.not_false, if_true, Option.bind_eq_some] at he
    obtain ⟨bp, hbp, he⟩ := he
    obtain ⟨t0, ht0, he⟩ := he
    simp only [Option.pure_def, Option.some.injEq, Prod.mk.injEq] at he
    obtain ⟨h1, _⟩ := he
    subst h1
    exact Topology.set_halfedge_spec _ _ _ _ ht0
  | true =>
    rw [hnii] at he
    simp only [Bool.not_true, Bool.false_eq_true, if_false] at he
    cases hni : ni with
    | false =>
      rw [hni] at he
      simp only [Bool.not_false, if_true, Option.bind_eq_some] at he
      obtain ⟨bn, hbn, he⟩ := he
      obtain ⟨t0, ht0, he⟩ := he
      simp only [Option.pure_def, Option.some.injEq, Prod.mk.injEq] at he
      obtain ⟨h1, _⟩ := he
      subst h1
      exact Topology.set_halfedge_spec _ _ _ _ ht0
    | true =>
      rw [hni] at he
      simp only [Bool.not_true, Bool.false_eq_true, if_false,
        Option.bind_eq_bind, Option.bind_eq_some] at he
      obtain ⟨hvv, hhvv, he⟩ := he
      cases hvv with
      | none =>
        simp only [Option.bind_eq_some] at he
        obtain ⟨t0, ht0, he⟩ := he
        simp only [Option.pure_def, Option.some.injEq, Prod.mk.injEq] at he
        obtain ⟨h1, _⟩ := he
        subst h1
        exact Topology.set_halfedge_spec _ _ _ _ ht0
      | some hcur =>
        simp only [Option.bind_eq_some] at he
        obtain ⟨bp, hbp, he⟩ := he
        simp only [Option.pure_def, Option.some.injEq, Prod.mk.injEq] at he
        obtain ⟨h1, _⟩ := he
        subst h1
        exact ⟨rfl, rfl, rfl⟩

theorem setupStep_spec (f : Nat) (vs : List Nat) (n : Nat) (hvec : List (Option Nat))
    (newv : List Bool) (m : Mesh) (cache : List (Hnd × Hnd)) (adj : List Bool)
    (i : Nat) (m' : Mesh) (cache' : List (Hnd × Hnd)) (adj' : List Bool)
    (he : setupStep f vs n hvec newv m cache adj i = some (m', cache', adj')) :
    m'.properties = m.properties ∧
    m'.topology.vconn_.length = m.topology.vconn_.length ∧
    m'.topology.hconn_.length = m.topology.hconn_.length ∧
    m'.topology.fconn_ = m.topology.fconn_ := by
  unfold setupStep at he
  simp only [Option.bind_eq_bind, Option.bind_eq_some] at he
  obtain ⟨v, hv, he⟩ := he
  obtain ⟨ip0, hip0, he⟩ := he
  obtain ⟨ip, hip, he⟩ := he
  obtain ⟨in0, hin0, he⟩ := he
  obtain ⟨inx, hinx, he⟩ := he
  obtain ⟨ni, hni, he⟩ := he
  obtain ⟨nii, hnii, he⟩ := he
  cases hcond : (ni || nii) with
  | true =>
    rw [hcond] at he
    simp only [if_true, Option.bind_eq_some] at he
    obtain ⟨⟨t1, cache1⟩, ht1, he⟩ := he
    obtain ⟨t2, ht2, he⟩ := he
    simp only [Option.pure_def, Option.some.injEq, Prod.mk.injEq] at he
    obtain ⟨hm', _, _⟩ := he
    have hlen1 := setupLink_spec m (some v) ip inx ni nii cache t1 cache1 ht1
    have hsf := Topology.set_face_spec _ _ _ _ ht2
    subst hm'
    refine ⟨rfl, ?_, ?_, ?_⟩
    · simp only [hsf.2.1, hlen1.1]
    · simp only [hsf.1, hlen1.2.1]
    · simp only [hsf.2.2, hlen1.2.2]
  | false =>
    rw [hcond] at he
    simp only [Bool.false_eq_true, if_false, Option.bind_eq_some] at he
    obtain ⟨hv0, hhv0, he⟩ := he
    obtain ⟨hvx, hhvx, he⟩ := he
    obtain ⟨t2, ht2, he⟩ := he
    simp only [Option.pure_def, Option.some.injEq, Prod.mk.injEq] at he
    obtain ⟨hm', _, _⟩ := he
    have hsf := Topology.set_face_spec _ _ _ _ ht2
    subst hm'
    exact ⟨rfl, by simp only [hsf.2.1], by simp only [hsf.1], by simp only [hsf.2.2]⟩

theorem addFaceSetup_spec (f : Nat) (vs : List Nat) (n : Nat) (hvec : List (Option Nat))
    (newv : List Bool) :
    ∀ (is : List Nat) (m : Mesh) (cache : List (Hnd × Hnd)) (adj : List Bool)
      (m' : Mesh) (cache' : List (Hnd × Hnd)) (adj' : List Bool),
      addFaceSetup f vs n hvec newv m cache adj is = some (m', cache', adj') →
      m'.properties = m.properties ∧
      m'.topology.vconn_.length = m.topology.vconn_.length ∧
      m'.topology.hconn_.length = m.topology.hconn_.length ∧
      m'.topology.fconn_ = m.topology.fconn_ := by
  intro is
  induction is with
  | nil =>
    intro m cache adj m' cache' adj' he
    unfold addFaceSetup at he
    simp at he
    obtain ⟨h1, _, _⟩ := he
    subst h1
    exact ⟨rfl, rfl, rfl, rfl⟩
  | cons i rest ih =>
    intro m cache adj m' cache' adj' he
    unfold addFaceSetup at he
    simp only [Option.bind_eq_bind, Option.bind_eq_some] at he
    obtain ⟨⟨m1, cache1, adj1⟩, h1, he⟩ := he
    have hs := setupStep_spec f vs n hvec newv m cache adj i m1 cache1 adj1 h1
    have hr := ih m1 cache1 adj1 m' cache' adj' he
    refine ⟨hr.1.trans hs.1, ?_, ?_, hr.2.2.2.trans hs.2.2.2⟩
    · rw [hr.2.1, hs.2.1]
    · rw [hr.2.2.1, hs.2.2.1]

theorem Mesh.new_edge_spec (m : Mesh) (a b : Nat) (m' : Mesh) (h0 : Nat)
    (he : m.new_edge a b = some (m', h0)) :
    m'.properties.vprop_ = m.properties.vprop_ ∧
    m'.properties.hprop_ = m.properties.hprop_.push.push ∧
    m'.properties.eprop_ = m.properties.eprop_.push ∧
    m'.properties.fprop_ = m.properties.fprop_ ∧
    m'.topology.hconn_.length = m.topology.hconn_.length + 2 ∧
    m'.topology.vconn_ = m.topology.vconn_ ∧
    m'.topology.fconn_ = m.topology.fconn_ ∧
    h0 = m.topology.hconn_.length := by
  unfold Mesh.new_edge at he
  by_cases hab : a = b
  · rw [if_pos hab] at he
    simp at he
  · rw [if_neg hab] at he
    simp only [Option.bind_eq_bind, Option.bind_eq_some] at he
    obtain ⟨t2, ht2, he⟩ := he
    obtain ⟨t3, ht3, he⟩ := he
    simp only [Option.pure_def, Option.some.injEq, Prod.mk.injEq] at he
    obtain ⟨hm', hh0⟩ := he
    have h2 := Topology.set_vertex_spec _ _ _ _ ht2
    have h3 := Topology.set_vertex_spec _ _ _ _ ht3
    subst hm'
    refine ⟨rfl, rfl, rfl, rfl, ?_, ?_, ?_, ?_⟩
    · rw [h3.1, h2.1]; simp
    · rw [h3.2.1, h2.2.1]
    · rw [h3.2.2, h2.2.2]
    · rw [← hh0]; simp

theorem Mesh.new_edge_I7 (m : Mesh) (a b : Nat) (m' : Mesh) (h0 : Nat)
    (he : m.new_edge a b = some (m', h0)) (h7 : I7 m) : I7 m' := by
  obtain ⟨hvp, hhp, hep, hfp, hhl, hvc, hfc, _⟩ := Mesh.new_edge_spec m a b m' h0 he
  obtain ⟨h1, h2, h3, h4, h5⟩ := h7
  refine ⟨?_, ?_, ?_, ?_, ?_⟩
  · rw [hvp]
    unfold Topology.n_vertices
    rw [hvc]
    exact h1
  · rw [hhp]
    unfold Topology.n_halfedges at *
    rw [hhl]
    exact PropertyContainer.rowsEq_push (PropertyContainer.rowsEq_push h2)
  · rw [hep]
    unfold Topology.n_edges at *
    rw [hhl]
    have : (m.topology.hconn_.length + 2) / 2 = m.topology.hconn_.length / 2 + 1 := by omega
    rw [this]
    exact PropertyContainer.rowsEq_push h3
  · rw [hfp]
    unfold Topology.n_faces
    rw [hfc]
    exact h4
  · unfold Topology.n_halfedges Topology.n_edges at *
    rw [hhl]
    omega

theorem addFaceEdges_I7 (vs : List Nat) (n : Nat) :
    ∀ (is : List Nat) (hvec : List (Option Nat)) (newv : List Bool) (m m1 : Mesh)
      (hv1 : List (Option Nat)),
      addFaceEdges m vs n hvec newv is = some (m1, hv1) → I7 m → I7 m1 := by
  intro is
  induction is with
  | nil =>
    intro hvec newv m m1 hv1 he h7
    unfold addFaceEdges at he
    simp only [Option.pure_def, Option.some.injEq, Prod.mk.injEq] at he
    rw [← he.1]
    exact h7
  | cons i rest ih =>
    intro hvec newv m m1 hv1 he h7
    unfold addFaceEdges at he
    simp only [Option.bind_eq_bind, Option.bind_eq_some] at he
    obtain ⟨ni, hni, he⟩ := he
    cases ni with
    | true =>
      simp only [if_true, Option.bind_eq_some] at he
      obtain ⟨vi, hvi, he⟩ := he
      obtain ⟨vii, hvii, he⟩ := he
      obtain ⟨⟨m', h0⟩, hne, he⟩ := he
      exact ih _ _ m' m1 hv1 he (Mesh.new_edge_I7 m vi vii m' h0 hne h7)
    | false =>
      simp only [Bool.false_eq_true, if_false] at he
      exact ih _ _ m m1 hv1 he h7

theorem Mesh.add_vertex_I7 (m : Mesh) (h7 : I7 m) : I7 (m.add_vertex).1 := by
  obtain ⟨h1, h2, h3, h4, h5⟩ := h7
  unfold Mesh.add_vertex
  refine ⟨?_, h2, h3, h4, h5⟩
  unfold Topology.n_vertices
  simp only [List.length_append, List.length_cons, List.length_nil]
  exact PropertyContainer.rowsEq_push h1

theorem Mesh.add_vertices_I7 (m : Mesh) (k : Nat) (h7 : I7 m) :
    I7 (m.add_vertices k).1 := by
  induction k generalizing m with
  | zero => exact h7
  | succ j ih =>
    have hstep : (m.add_vertices (j+1)).1 = ((m.add_vertex).1.add_vertices j).1 := rfl
    rw [hstep]
    exact ih (m.add_vertex).1 (Mesh.add_vertex_I7 m h7)

theorem Mesh.add_face_I7 (m : Mesh) (vs : List Nat) (fuel : Nat) (res : Option Nat)
    (m' : Mesh) (he : m.add_face vs fuel = some (res, m')) (h7 : I7 m) : I7 m' := by
  cases res with
  | none => rw [add_face_rejected_eq m vs fuel m' he]; exact h7
  | some fr =>
    unfold Mesh.add_face at he
    cases h1 : addFacePre m.topology vs vs.length fuel (List.range vs.length) with
    | none => rw [h1] at he; simp at he
    | some r1 =>
      rw [h1] at he
      cases r1 with
      | none => simp at he
      | some p =>
        obtain ⟨hvec, newv⟩ := p
        simp only [Option.bind_eq_bind, Option.some_bind] at he
        cases h2 : addFaceRelink m.topology vs.length hvec newv fuel (List.range vs.length) with
        | none => rw [h2] at he; simp at he
        | some r2 =>
          rw [h2] at he
          cases r2 with
          | none => simp at he
          | some cache0 =>
            simp only [Option.bind_eq_bind, Option.some_bind, Option.bind_eq_some,
              Option.pure_def, Option.some.injEq, Prod.mk.injEq] at he
            obtain ⟨⟨m1, hvec1⟩, hedges, he⟩ := he
            obtain ⟨a2, ha2, he⟩ := he
            obtain ⟨a3, ha3, he⟩ := he
            obtain ⟨⟨m4, cache1, adj1⟩, hsetup, he⟩ := he
            obtain ⟨t5, hcommit, he⟩ := he
            obtain ⟨t6, hadjust, he⟩ := he
            obtain ⟨_, hm'⟩ := he
            have h7m1 : I7 m1 := addFaceEdges_I7 vs vs.length (List.range vs.length)
              hvec newv m m1 hvec1 hedges h7
            have hsp := addFaceSetup_spec _ vs vs.length hvec1 newv
              (List.range vs.length) _ cache0 (List.replicate vs.length false)
              m4 cache1 adj1 hsetup
            have hcm := commitCache_spec cache1 m4.topology t5 hcommit
            have haj := adjustPhase_spec vs adj1 fuel (List.range vs.length) t5 t6 hadjust
            subst hm'
            obtain ⟨i1, i2, i3, i4, i5⟩ := h7m1
            -- entity counts of the final topology t6, tracked back to m1
            have hvlen : t6.vconn_.length = m1.topology.vconn_.length := by
              rw [haj.1, hcm.2.1, hsp.2.1]
            have hhlen : t6.hconn_.length = m1.topology.hconn_.length := by
              rw [haj.2.1, hcm.1, hsp.2.2.1]
            have hflen : t6.fconn_.length = m1.topology.fconn_.length + 1 := by
              rw [haj.2.2, hcm.2.2, hsp.2.2.2]
              simp
            have hprops : m4.properties =
                { m1.properties with fprop_ := m1.properties.fprop_.push } := hsp.1
            refine ⟨?_, ?_, ?_, ?_, ?_⟩
            · rw [hprops]
              unfold Topology.n_vertices
              simp only [hvlen]
              exact i1
            · rw [hprops]
              unfold Topology.n_halfedges at *
              simp only [hhlen]
              exact i2
            · rw [hprops]
              unfold Topology.n_edges at *
              simp only [hhlen]
              exact i3
            · rw [hprops]
              unfold Topology.n_faces at *
              simp only [hflen]
              exact PropertyContainer.rowsEq_push i4
            · unfold Topology.n_halfedges Topology.n_edges at *
              simp only [hhlen]
              exact i5

/-- Claim C6: invariant I7 holds after every public mutation: if every
named property has row count equal to its entity count before the call
(vertex count for V, 2x edge count for H, edge count for E, face count for
F), the same holds after `add_vertex`, after `add_vertices`, and after any
returning `add_face`. -/
theorem property_rows_match_entity_counts (m : Mesh) (h7 : I7 m) :
    I7 (m.add_vertex).1 ∧
    (∀ k, I7 (m.add_vertices k).1) ∧
    (∀ vs fuel res m', m.add_face vs fuel = some (res, m') → I7 m') :=
  ⟨Mesh.add_vertex_I7 m h7, fun k => Mesh.add_vertices_I7 m k h7,
   fun vs fuel res m' he => Mesh.add_face_I7 m vs fuel res m' he h7⟩

/-- Witness for C6 at a concrete input: the empty mesh satisfies I7 and so
does the mesh after `add_vertex`. -/
theorem property_rows_match_entity_counts_witness :
    I7 Mesh.new ∧ I7 (Mesh.new.add_vertex).1 :=
  ⟨by decide, (property_rows_match_entity_counts Mesh.new (by decide)).1⟩

/-! Development for the fresh-polygon `add_face` computation (claim C3):
expected intermediate states of `add_face` on `n` fresh vertices. -/

/-- The mesh holding `n` fresh vertices and nothing else. -/
def mkMesh (n : Nat) : Mesh :=
  ⟨⟨List.replicate n VertexConnectivity.new, [], []⟩, Properties.new⟩

/-- Expected halfedge record `h` after the edge-creation phase of a fresh
`n`-gon: halfedge `2e` points at vertex `(e+1) % n`, halfedge `2e+1` points
back at vertex `e`; faces and links are still unset. -/
def edF (n h : Nat) : HalfedgeConnectivity :=
  if h % 2 = 0 then ⟨some ((h/2+1) % n), none, none, none⟩
  else ⟨some (h/2), none, none, none⟩

/-- Mesh state after creating the first `j` fresh edges. -/
def edMesh (n j : Nat) : Mesh :=
  ⟨⟨List.replicate n VertexConnectivity.new, (List.range (2*j)).map (edF n), []⟩,
   Properties.new⟩

/-- `hvec` after the first `j` edges have been created. -/
def hvF (n j : Nat) : List (Option Nat) :=
  (List.range j).map (fun i => some (2*i)) ++
    (List.range' j (n - j)).map (fun _ => (none : Option Nat))

/- Toolkit lemmas about maps over `List.range`. -/

theorem get?_map_range {α : Type} (f : Nat → α) {i n : Nat} (h : i < n) :
    ((List.range n).map f).get? i = some (f i) := by
  rw [List.get?_map, List.get?_range h]
  rfl

theorem set_map_range {α : Type} (f : Nat → α) {j n : Nat} (v : α) (hj : j < n) :
    ((List.range n).map f).set j v
      = (List.range n).map (fun i => if i = j then v else f i) := by
  apply List.ext_get?
  intro k
  by_cases hkj : k = j
  · subst hkj
    rw [List.get?_set_eq, List.get?_map, List.get?_range hj, get?_map_range _ hj]
    simp
  · rw [List.get?_set_ne _ _ (fun hh => hkj hh.symm)]
    by_cases hk : k < n
    · simp [List.get?_map, List.getElem?_range hk, hkj]
    · have h1 : (List.range n)[k]? = none := by
        rw [List.getElem?_eq_none] <;> simp [Nat.le_of_not_lt hk]
      simp [List.get?_map, h1]

theorem get?_append_length {α : Type} (L : List α) (x : α) (R : List α) :
    (L ++ x :: R).get? L.length = some x := by
  rw [List.get?_append_right (Nat.le_refl _)]
  simp

theorem get?_append_length_succ {α : Type} (L : List α) (x y : α) (R : List α) :
    (L ++ x :: y :: R).get? (L.length + 1) = some y := by
  rw [List.get?_append_right (by omega : L.length ≤ L.length + 1)]
  simp

theorem set_append_length {α : Type} (L : List α) (x y : α) (R : List α) :
    (L ++ x :: R).set L.length y = L ++ y :: R := by
  induction L with
  | nil => simp
  | cons a t ih => simp [ih]

theorem set_append_length_succ {α : Type} (L : List α) (x y z : α) (R : List α) :
    (L ++ x :: y :: R).set (L.length + 1) z = L ++ x :: z :: R := by
  induction L with
  | nil => simp
  | cons a t ih => simp [ih]

theorem set_append_length' {α : Type} (L : List α) (x y : α) (R : List α)
    (j : Nat) (hL : L.length = j) : (L ++ x :: R).set j y = L ++ y :: R := by
  subst hL
  exact set_append_length L x y R

theorem get?_append_length' {α : Type} (L : List α) (x : α) (R : List α)
    (j : Nat) (hL : L.length = j) : (L ++ x :: R).get? j = some x := by
  subst hL
  exact get?_append_length L x R

/- Accessor evaluations on the fresh-vertex mesh. -/

theorem mkMesh_halfedge {n i : Nat} (h : i < n) :
    (mkMesh n).topology.halfedge (some i) = some none := by
  simp [mkMesh, Topology.halfedge, Option.bind_eq_bind, List.get?_eq_getElem?,
    List.getElem?_replicate, h, VertexConnectivity.new]

theorem mkMesh_is_boundary_vertex {n i : Nat} (h : i < n) :
    (mkMesh n).topology.is_boundary_vertex (some i) = some true := by
  unfold Topology.is_boundary_vertex
  rw [Option.bind_eq_bind, mkMesh_halfedge h]
  rfl

theorem mkMesh_find_halfedge {n i : Nat} (h : i < n) (e : Hnd) (fuel : Nat) :
    (mkMesh n).topology.find_halfedge (some i) e fuel = some none := by
  unfold Topology.find_halfedge
  rw [Option.bind_eq_bind, mkMesh_halfedge h]
  rfl

/-- Phase 1 on a fresh `n`-gon accepts every index and records no existing
halfedges. -/
theorem addFacePre_fresh (n fuel : Nat) (hn : 0 < n) :
    ∀ is : List Nat, (∀ i ∈ is, i < n) →
      addFacePre (mkMesh n).topology (List.range n) n fuel is
        = some (some (is.map (fun _ => none), is.map (fun _ => true))) := by
  intro is
  induction is with
  | nil => intro _; rfl
  | cons j js ih =>
    intro hmem
    have hj : j < n := hmem j (List.mem_cons_self j js)
    have hjj : (j+1) % n < n := Nat.mod_lt _ hn
    unfold addFacePre
    rw [ih (fun i hi => hmem i (List.mem_cons_of_mem j hi))]
    simp only [Option.bind_eq_bind, Option.some_bind, List.get?_range hj,
      List.get?_range hjj, mkMesh_is_boundary_vertex hj,
      mkMesh_find_halfedge hj _ fuel, Bool.not_true, Bool.false_eq_true, if_false,
      Option.isNone_none, Option.pure_def, List.map_cons]

/-- Phase 2 on a fresh `n`-gon queues nothing: every edge is new. -/
theorem addFaceRelink_fresh (t : Topology) (n fuel : Nat) (hn : 0 < n) :
    ∀ is : List Nat, (∀ i ∈ is, i < n) →
      addFaceRelink t n ((List.range n).map (fun _ => none))
        ((List.range n).map (fun _ => true)) fuel is = some (some []) := by
  intro is
  induction is with
  | nil => intro _; rfl
  | cons j js ih =>
    intro hmem
    have hj : j < n := hmem j (List.mem_cons_self j js)
    have hjj : (j+1) % n < n := Nat.mod_lt _ hn
    unfold addFaceRelink
    have hstep : relinkStep t n ((List.range n).map (fun _ => none))
        ((List.range n).map (fun _ => true)) fuel j = some (some id) := by
      unfold relinkStep
      simp only [Option.bind_eq_bind, Option.some_bind, get?_map_range _ hj,
        get?_map_range _ hjj]
      rfl
    rw [ih (fun i hi => hmem i (List.mem_cons_of_mem j hi))]
    simp only [Option.bind_eq_bind, Option.some_bind, hstep, Option.map_some]
    rfl

/-- The mesh produced by a successful `new_edge(a, b)`. -/
def newEdgeResult (m : Mesh) (a b : Nat) : Mesh where
  topology :=
    { m.topology with
      hconn_ := m.topology.hconn_ ++
        [⟨some b, none, none, none⟩, ⟨some a, none, none, none⟩] }
  properties :=
    { m.properties with
      eprop_ := m.properties.eprop_.push
      hprop_ := m.properties.hprop_.push.push }

/-- Explicit form of `new_edge` for distinct endpoints: two fresh halfedge
records are appended, pointing at the end and start vertex respectively. -/
theorem Mesh.new_edge_eq (m : Mesh) (a b : Nat) (hab : a ≠ b) :
    m.new_edge a b = some (newEdgeResult m a b, m.topology.hconn_.length) := by
  unfold Mesh.new_edge Topology.set_vertex newEdgeResult
  rw [if_neg hab]
  have hassoc : (m.topology.hconn_ ++ [HalfedgeConnectivity.new]) ++ [HalfedgeConnectivity.new]
      = m.topology.hconn_ ++ HalfedgeConnectivity.new :: HalfedgeConnectivity.new :: [] := by
    simp
  have hl1 : (m.topology.hconn_ ++ [HalfedgeConnectivity.new]).length - 1
      = m.topology.hconn_.length := by simp
  have hl2 : (m.topology.hconn_ ++ [HalfedgeConnectivity.new, HalfedgeConnectivity.new]).length - 1
      = m.topology.hconn_.length + 1 := by simp
  simp only [hassoc, hl1, hl2, Option.bind_eq_bind, Option.some_bind,
    get?_append_length, get?_append_length_succ, set_append_length,
    set_append_length_succ, Option.pure_def]
  rfl

theorem map_range_two_step {α : Type} (g : Nat → α) (j : Nat) :
    (List.range (2*(j+1))).map g
      = (List.range (2*j)).map g ++ [g (2*j), g (2*j+1)] := by
  have h1 : 2*(j+1) = (2*j+1)+1 := by omega
  rw [h1, List.range_succ, List.range_succ]
  simp

theorem succ_mod_ne {n j : Nat} (hn : 2 ≤ n) (hj : j < n) : j ≠ (j+1) % n := by
  by_cases hend : j + 1 = n
  · rw [hend, Nat.mod_self]
    omega
  · rw [Nat.mod_eq_of_lt (by omega)]
    omega

/-- Phase 3 on a fresh `n`-gon: processing the corners `j, j+1, …, n-1`
creates one edge per corner, growing `edMesh n j` to `edMesh n n` and
filling `hvec`. -/
theorem addFaceEdges_fresh (n : Nat) (hn : 2 ≤ n) :
    ∀ (k j : Nat), j + k = n →
      addFaceEdges (edMesh n j) (List.range n) n (hvF n j)
          ((List.range n).map (fun _ => true)) (List.range' j k)
        = some (edMesh n n, hvF n n) := by
  intro k
  induction k with
  | zero =>
    intro j hj
    have : j = n := by omega
    subst this
    rfl
  | succ k' ih =>
    intro j hj
    have hjn : j < n := by omega
    have hjj : (j+1) % n < n := Nat.mod_lt _ (by omega)
    rw [List.range'_succ]
    unfold addFaceEdges
    rw [Option.bind_eq_bind, get?_map_range _ hjn, Option.some_bind]
    simp only [if_true]
    rw [Option.bind_eq_bind, List.get?_range hjn, Option.some_bind,
      Option.bind_eq_bind, List.get?_range hjj, Option.some_bind]
    rw [Mesh.new_edge_eq (edMesh n j) j ((j+1) % n) (succ_mod_ne hn hjn),
      Option.some_bind']
    have hmesh : newEdgeResult (edMesh n j) j ((j+1) % n) = edMesh n (j+1) := by
      unfold newEdgeResult edMesh
      have hh : (List.range (2*j)).map (edF n) ++
          [⟨some ((j+1) % n), none, none, none⟩, ⟨some j, none, none, none⟩]
          = (List.range (2*(j+1))).map (edF n) := by
        rw [map_range_two_step]
        have he1 : edF n (2*j) = ⟨some ((j+1) % n), none, none, none⟩ := by
          unfold edF
          have h2 : (2*j) % 2 = 0 := by omega
          have h3 : (2*j) / 2 = j := by omega
          rw [if_pos h2, h3]
        have he2 : edF n (2*j+1) = ⟨some j, none, none, none⟩ := by
          unfold edF
          have h2 : ¬ ((2*j+1) % 2 = 0) := by omega
          have h3 : (2*j+1) / 2 = j := by omega
          rw [if_neg h2, h3]
        rw [he1, he2]
      simp only [hh]
      rfl
    have hlen : (edMesh n j).topology.hconn_.length = 2*j := by
      simp [edMesh]
    have hhv : (hvF n j).set j (some ((edMesh n j).topology.hconn_.length))
        = hvF n (j+1) := by
      rw [hlen]
      unfold hvF
      have hk' : n - j = k' + 1 := by omega
      rw [hk', List.range'_succ]
      rw [List.map_cons,
        set_append_length' _ _ _ _ j (by simp)]
      have : (List.range j).map (fun i => some (2*i)) ++
            some (2*j) :: (List.range' (j+1) k').map (fun _ => (none : Option Nat))
          = ((List.range j).map (fun i => some (2*i)) ++ [some (2*j)]) ++
            (List.range' (j+1) k').map (fun _ => (none : Option Nat)) := by
        simp
      rw [this]
      have hmr : (List.range (j+1)).map (fun i => some (2*i))
          = (List.range j).map (fun i => some (2*i)) ++ [some (2*j)] := by
        rw [List.range_succ, List.map_append]
        rfl
      rw [← hmr]
      have hk2 : n - (j+1) = k' := by omega
      rw [hk2]
    rw [hmesh, hhv]
    exact ih (j+1) (by omega)

/-- Expected halfedge record during the setup loop of a fresh `n`-gon:
after `j` corners, the inner halfedges `2e` with `e < j` carry the face. -/
def stHC (n j h : Nat) : HalfedgeConnectivity :=
  if h % 2 = 0 ∧ h / 2 < j then ⟨some ((h/2+1) % n), some 0, none, none⟩
  else edF n h

/-- Expected vertex record during the setup loop of a fresh `n`-gon:
after `j` corners, the vertices `1..j` point at the outer halfedge of their
incoming inner halfedge. -/
def stVC (n j v : Nat) : VertexConnectivity :=
  if 1 ≤ v ∧ v ≤ j then ⟨some (2*(v-1)+1)⟩ else ⟨none⟩

/-- Vertex record after the final setup corner, which also sets vertex 0. -/
def stVCfin (n v : Nat) : VertexConnectivity :=
  if v = 0 then ⟨some (2*(n-1)+1)⟩ else ⟨some (2*(v-1)+1)⟩

/-- Mesh state after `j` corners of the setup loop. -/
def stMesh (n j : Nat) : Mesh :=
  ⟨⟨(List.range n).map (stVC n j), (List.range (2*n)).map (stHC n j),
    [⟨some (2*(n-1))⟩]⟩, Properties.new⟩

/-- Mesh state after the whole setup loop. -/
def stMeshFin (n : Nat) : Mesh :=
  ⟨⟨(List.range n).map (stVCfin n), (List.range (2*n)).map (stHC n n),
    [⟨some (2*(n-1))⟩]⟩, Properties.new⟩

/-- The two re-links queued at corner `i` of a fresh `n`-gon. -/
def cacheStep (n i : Nat) : List (Hnd × Hnd) :=
  [(some (2*((i+1) % n)+1), some (2*i+1)), (some (2*i), some (2*((i+1) % n)))]

/-- All re-links queued during the first `j` corners. -/
def cacheF (n j : Nat) : List (Hnd × Hnd) :=
  (List.range j).flatMap (cacheStep n)

theorem hvF_full (n : Nat) : hvF n n = (List.range n).map (fun i => some (2*i)) := by
  unfold hvF
  simp

/-- One setup corner `i` of a fresh `n`-gon, in terms of the expected
states.  Requires `i < n`; the target vertex is `(i+1) % n` and is not yet
assigned an outgoing halfedge. -/
theorem setupStep_fresh (n i : Nat) (hn : 2 ≤ n) (hi : i < n)
    (cache : List (Hnd × Hnd)) (adj : List Bool) :
    setupStep 0 (List.range n) n (hvF n n) ((List.range n).map (fun _ => true))
      (stMesh n i) cache adj i
      = some ({ stMesh n i with topology := { (stMesh n i).topology with
          vconn_ := (stMesh n i).topology.vconn_.set ((i+1) % n)
            ⟨some (2*i+1)⟩,
          hconn_ := (stMesh n i).topology.hconn_.set (2*i)
            ⟨some (((2*i)/2+1) % n), some 0, none, none⟩ }},
        cache ++ cacheStep n i, adj) := by
  have hii : (i+1) % n < n := Nat.mod_lt _ (by omega)
  have h2i : 2*i < 2*n := by omega
  have h2ii : 2*((i+1) % n) < 2*n := by omega
  unfold setupStep
  rw [Option.bind_eq_bind, List.get?_range hii, Option.some_bind]
  rw [hvF_full]
  rw [Option.bind_eq_bind, get?_map_range _ hi, Option.some_bind, Option.some_bind]
  rw [Option.bind_eq_bind, get?_map_range _ hii, Option.some_bind, Option.some_bind]
  rw [Option.bind_eq_bind, get?_map_range _ hi, Option.some_bind]
  rw [Option.bind_eq_bind, get?_map_range _ hii, Option.some_bind]
  simp only [Bool.true_or, if_true]
  have hsh : (stMesh n i).topology.set_halfedge (some ((i+1) % n)) (some (2*i+1))
      = some { (stMesh n i).topology with
          vconn_ := (stMesh n i).topology.vconn_.set ((i+1) % n) ⟨some (2*i+1)⟩ } := by
    unfold Topology.set_halfedge
    rw [Option.bind_eq_bind, Option.some_bind]
    show (((List.range n).map (stVC n i)).get? ((i+1) % n)).bind _ = _
    rw [get?_map_range _ hii, Option.some_bind']
    rfl
  have hlink : setupLink (stMesh n i) (some ((i+1) % n)) (2*i) (2*((i+1) % n))
      true true cache = some
        ({ (stMesh n i).topology with
            vconn_ := (stMesh n i).topology.vconn_.set ((i+1) % n) ⟨some (2*i+1)⟩ },
         cache ++ [(some (2*((i+1) % n)+1), some (2*i+1))]) := by
    unfold setupLink
    have hop1 : (stMesh n i).topology.opposite_halfedge (some (2*((i+1) % n)))
        = some (some (2*((i+1) % n)+1)) := by
      unfold Topology.opposite_halfedge
      have hne : ¬ ((2*((i+1) % n)) % 2 = 1) := by omega
      simp [hne]
    have hop2 : (stMesh n i).topology.opposite_halfedge (some (2*i))
        = some (some (2*i+1)) := by
      unfold Topology.opposite_halfedge
      have hne : ¬ ((2*i) % 2 = 1) := by omega
      simp [hne]
    rw [Option.bind_eq_bind, hop1, Option.some_bind,
      Option.bind_eq_bind, hop2, Option.some_bind]
    simp only [Bool.not_true, Bool.false_eq_true, if_false]
    have hhv : (stMesh n i).topology.halfedge (some ((i+1) % n)) = some none := by
      unfold Topology.halfedge
      rw [Option.bind_eq_bind, Option.some_bind]
      show (((List.range n).map (stVC n i)).get? ((i+1) % n)).bind _ = _
      rw [get?_map_range _ hii, Option.some_bind']
      have hvc : stVC n i ((i+1) % n) = ⟨none⟩ := by
        unfold stVC
        have hcond : ¬ (1 ≤ (i+1) % n ∧ (i+1) % n ≤ i) := by
          by_cases hlt : i + 1 < n
          · rw [Nat.mod_eq_of_lt hlt]
            omega
          · have heq : i + 1 = n := by omega
            rw [heq, Nat.mod_self]
            omega
        rw [if_neg hcond]
      rw [hvc]
      rfl
    rw [hhv, Option.some_bind']
    rw [hsh, Option.some_bind']
    rfl
  rw [hlink]
  simp only [Option.some_bind, Option.some_bind']
  unfold Topology.set_face
  simp only [Option.bind_eq_bind, Option.some_bind, Option.some_bind']
  have hproj : ({ (stMesh n i).topology with
      vconn_ := (stMesh n i).topology.vconn_.set ((i+1) % n)
        (⟨some (2*i+1)⟩ : VertexConnectivity) }).hconn_
      = (List.range (2*n)).map (stHC n i) := rfl
  rw [hproj, get?_map_range _ h2i]
  rw [Option.some_bind']
  have hrec : stHC n i (2*i) = ⟨some (((2*i)/2+1) % n), none, none, none⟩ := by
    unfold stHC edF
    have hc : ¬ ((2*i) % 2 = 0 ∧ (2*i) / 2 < i) := by omega
    have he : (2*i) % 2 = 0 := by omega
    rw [if_neg hc, if_pos he]
  rw [hrec]
  simp only [cacheStep, List.append_assoc, List.singleton_append]
  rfl

theorem cacheF_succ (n j : Nat) : cacheF n (j+1) = cacheF n j ++ cacheStep n j := by
  unfold cacheF
  rw [List.range_succ, List.flatMap_append]
  simp

theorem stMesh_step (n i : Nat) (hi : i < n-1) :
    ({ stMesh n i with topology := { (stMesh n i).topology with
        vconn_ := (stMesh n i).topology.vconn_.set ((i+1) % n) ⟨some (2*i+1)⟩,
        hconn_ := (stMesh n i).topology.hconn_.set (2*i)
          ⟨some (((2*i)/2+1) % n), some 0, none, none⟩ }} : Mesh)
      = stMesh n (i+1) := by
  have hin : i + 1 < n := by omega
  have hii : (i+1) % n = i+1 := Nat.mod_eq_of_lt hin
  have h2i : 2*i < 2*n := by omega
  unfold stMesh
  simp only [hii]
  congr 1
  congr 1
  · rw [set_map_range _ _ hin]
    apply List.map_congr_left
    intro v hv
    have hvn : v < n := List.mem_range.mp hv
    unfold stVC
    by_cases hveq : v = i+1
    · subst hveq
      rw [if_pos rfl, if_pos (by omega)]
      have h3 : i + 1 - 1 = i := by omega
      rw [h3]
    · rw [if_neg hveq]
      split_ifs with h1 h2 h3 <;> first | rfl | (exfalso; omega)
  · rw [set_map_range _ _ h2i]
    apply List.map_congr_left
    intro h hh
    have hhn : h < 2*n := List.mem_range.mp hh
    by_cases hheq : h = 2*i
    · subst hheq
      rw [if_pos rfl]
      unfold stHC
      rw [if_pos (by omega)]
    · rw [if_neg hheq]
      unfold stHC edF
      split_ifs with h1 h2 h3 <;> first | rfl | (exfalso; omega)

theorem stMesh_last (n : Nat) (hn : 2 ≤ n) :
    ({ stMesh n (n-1) with topology := { (stMesh n (n-1)).topology with
        vconn_ := (stMesh n (n-1)).topology.vconn_.set ((n-1+1) % n) ⟨some (2*(n-1)+1)⟩,
        hconn_ := (stMesh n (n-1)).topology.hconn_.set (2*(n-1))
          ⟨some (((2*(n-1))/2+1) % n), some 0, none, none⟩ }} : Mesh)
      = stMeshFin n := by
  have hmod : (n-1+1) % n = 0 := by
    have : n - 1 + 1 = n := by omega
    rw [this, Nat.mod_self]
  have h0n : 0 < n := by omega
  have h2i : 2*(n-1) < 2*n := by omega
  unfold stMesh stMeshFin
  simp only [hmod]
  congr 1
  congr 1
  · rw [set_map_range _ _ h0n]
    apply List.map_congr_left
    intro v hv
    have hvn : v < n := List.mem_range.mp hv
    unfold stVC stVCfin
    by_cases hveq : v = 0
    · subst hveq
      rw [if_pos rfl, if_pos rfl]
    · rw [if_neg hveq, if_neg hveq, if_pos (by omega)]
  · rw [set_map_range _ _ h2i]
    apply List.map_congr_left
    intro h hh
    have hhn : h < 2*n := List.mem_range.mp hh
    by_cases hheq : h = 2*(n-1)
    · subst hheq
      rw [if_pos rfl]
      unfold stHC
      rw [if_pos (by omega)]
    · rw [if_neg hheq]
      unfold stHC edF
      split_ifs with h1 h2 h3 <;> first | rfl | (exfalso; omega)

theorem addFaceSetup_append (f : Nat) (vs : List Nat) (n : Nat)
    (hvec : List (Option Nat)) (newv : List Bool) :
    ∀ (l1 l2 : List Nat) (m : Mesh) (c : List (Hnd × Hnd)) (a : List Bool),
      addFaceSetup f vs n hvec newv m c a (l1 ++ l2)
        = (addFaceSetup f vs n hvec newv m c a l1).bind
            (fun r => addFaceSetup f vs n hvec newv r.1 r.2.1 r.2.2 l2) := by
  intro l1
  induction l1 with
  | nil =>
    intro l2 m c a
    rfl
  | cons i t ih =>
    intro l2 m c a
    have hL : addFaceSetup f vs n hvec newv m c a ((i :: t) ++ l2)
        = (setupStep f vs n hvec newv m c a i).bind
            (fun r => addFaceSetup f vs n hvec newv r.1 r.2.1 r.2.2 (t ++ l2)) := rfl
    have hR : addFaceSetup f vs n hvec newv m c a (i :: t)
        = (setupStep f vs n hvec newv m c a i).bind
            (fun r => addFaceSetup f vs n hvec newv r.1 r.2.1 r.2.2 t) := rfl
    rw [hL, hR]
    cases hs : setupStep f vs n hvec newv m c a i with
    | none => rfl
    | some r =>
      simp only [Option.some_bind']
      exact ih l2 r.1 r.2.1 r.2.2

/-- The first `n-1` corners of the setup loop on a fresh `n`-gon. -/
theorem addFaceSetup_fresh_front (n : Nat) (hn : 2 ≤ n) (adj : List Bool) :
    ∀ (k j : Nat), j + k = n-1 →
      addFaceSetup 0 (List.range n) n (hvF n n) ((List.range n).map (fun _ => true))
          (stMesh n j) (cacheF n j) adj (List.range' j k)
        = some (stMesh n (n-1), cacheF n (n-1), adj) := by
  intro k
  induction k with
  | zero =>
    intro j hj
    have : j = n-1 := by omega
    subst this
    rfl
  | succ k' ih =>
    intro j hj
    have hjn : j < n := by omega
    rw [List.range'_succ]
    unfold addFaceSetup
    rw [Option.bind_eq_bind, setupStep_fresh n j hn hjn (cacheF n j) adj,
      Option.some_bind]
    rw [stMesh_step n j (by omega), ← cacheF_succ]
    exact ih (j+1) (by omega)

/-- The whole setup loop on a fresh `n`-gon: ends in `stMeshFin` with the
full re-link cache and an untouched adjustment list. -/
theorem addFaceSetup_fresh (n : Nat) (hn : 2 ≤ n) (adj : List Bool) :
    addFaceSetup 0 (List.range n) n (hvF n n) ((List.range n).map (fun _ => true))
        (stMesh n 0) (cacheF n 0) adj (List.range n)
      = some (stMeshFin n, cacheF n n, adj) := by
  have hsplit : List.range n = List.range' 0 (n-1) ++ [n-1] := by
    rw [List.range_eq_range']
    have h1 : n = (n-1) + 1 := by omega
    rw [h1]
    rw [List.range'_1_concat]
    simp
  have happ := addFaceSetup_append 0 (List.range n) n (hvF n n)
    ((List.range n).map (fun _ => true)) (List.range' 0 (n-1)) [n-1]
    (stMesh n 0) (cacheF n 0) adj
  rw [← hsplit] at happ
  rw [happ]
  rw [addFaceSetup_fresh_front n hn adj (n-1) 0 (by omega), Option.some_bind']
  have hone : addFaceSetup 0 (List.range n) n (hvF n n)
      ((List.range n).map (fun _ => true)) (stMesh n (n-1)) (cacheF n (n-1)) adj [n-1]
      = (setupStep 0 (List.range n) n (hvF n n) ((List.range n).map (fun _ => true))
          (stMesh n (n-1)) (cacheF n (n-1)) adj (n-1)).bind
          (fun r => pure (r.1, r.2.1, r.2.2)) := rfl
  rw [hone, setupStep_fresh n (n-1) hn (by omega) (cacheF n (n-1)) adj,
    Option.some_bind']
  rw [stMesh_last n hn, ← cacheF_succ]
  have hfin : n - 1 + 1 = n := by omega
  rw [hfin]
  rfl

/-- Source cell of a successful `set_next_halfedge`. -/
theorem Topology.set_next_src (t : Topology) (i : Nat) (nh : Hnd) (t' : Topology)
    (he : t.set_next_halfedge (some i) nh = some t') :
    ∃ c, t.hconn_.get? i = some c := by
  unfold Topology.set_next_halfedge at he
  simp only [Option.bind_eq_bind, Option.bind_eq_some, Option.pure_def,
    Option.some.injEq] at he
  obtain ⟨i', hi', ca, hca, _⟩ := he
  subst hi'
  exact ⟨ca, hca⟩

/-- Pointwise effect of `set_next_halfedge` on any cell: `vertex_` and
`face_` are untouched, `next_halfedge_` changes exactly at the first
argument. -/
theorem Topology.set_next_pointwise (t : Topology) (a nh : Hnd) (t' : Topology)
    (he : t.set_next_halfedge a nh = some t') (k : Nat) (c : HalfedgeConnectivity)
    (hk : t.hconn_.get? k = some c) :
    ∃ c', t'.hconn_.get? k = some c' ∧ c'.vertex_ = c.vertex_ ∧ c'.face_ = c.face_ ∧
      (a ≠ some k → c'.next_halfedge_ = c.next_halfedge_) ∧
      (a = some k → c'.next_halfedge_ = nh) := by
  unfold Topology.set_next_halfedge at he
  simp only [Option.bind_eq_bind, Option.bind_eq_some, Option.pure_def,
    Option.some.injEq] at he
  obtain ⟨i, rfl, ca, hca, j, rfl, cb, hcb, ht'⟩ := he
  subst ht'
  show ∃ c', ((t.hconn_.set i _).set j _).get? k = some c' ∧ _
  by_cases hjk : j = k
  · subst hjk
    by_cases hij : i = j
    · subst hij
      rw [hk] at hca
      have hcac : c = ca := Option.some.inj hca
      subst hcac
      rw [List.get?_set_eq, hk] at hcb
      have hcbc : { c with next_halfedge_ := some i } = cb := Option.some.inj hcb
      refine ⟨{ c with next_halfedge_ := some i, prev_halfedge_ := some i }, ?_, rfl, rfl, ?_, ?_⟩
      · rw [List.get?_set_eq, List.get?_set_eq, hk]
        rw [← hcbc]
        rfl
      · intro hne
        exact absurd rfl hne
      · intro _
        rfl
    · rw [List.get?_set_ne _ _ hij, hk] at hcb
      have hcbc : c = cb := Option.some.inj hcb
      subst hcbc
      refine ⟨{ c with prev_halfedge_ := some i }, ?_, rfl, rfl, ?_, ?_⟩
      · rw [List.get?_set_eq, List.get?_set_ne _ _ hij, hk]
        rfl
      · intro _
        rfl
      · intro hsome
        exact absurd (Option.some.inj hsome) hij
  · by_cases hik : i = k
    · subst hik
      rw [hk] at hca
      have hcac : c = ca := Option.some.inj hca
      subst hcac
      refine ⟨{ c with next_halfedge_ := some j }, ?_, rfl, rfl, ?_, ?_⟩
      · rw [List.get?_set_ne _ _ (fun hh => hjk hh), List.get?_set_eq, hk]
        rfl
      · intro hne
        exact absurd rfl hne
      · intro _
        rfl
    · refine ⟨c, ?_, rfl, rfl, fun _ => rfl, ?_⟩
      · rw [List.get?_set_ne _ _ (fun hh => hjk hh),
          List.get?_set_ne _ _ (fun hh => hik hh)]
        exact hk
      · intro hsome
        exact absurd (Option.some.inj hsome) hik

/-- `commitCache` never changes `vertex_` or `face_` of any cell. -/
theorem commitCache_vertex_face :
    ∀ (cache : List (Hnd × Hnd)) (t t' : Topology),
      commitCache t cache = some t' →
      ∀ (k : Nat) (c : HalfedgeConnectivity), t.hconn_.get? k = some c →
        ∃ c', t'.hconn_.get? k = some c' ∧ c'.vertex_ = c.vertex_ ∧ c'.face_ = c.face_ := by
  intro cache
  induction cache with
  | nil =>
    intro t t' he k c hk
    unfold commitCache at he
    simp at he
    subst he
    exact ⟨c, hk, rfl, rfl⟩
  | cons e rest ih =>
    intro t t' he k c hk
    obtain ⟨a, b⟩ := e
    unfold commitCache at he
    simp only [Option.bind_eq_bind, Option.bind_eq_some] at he
    obtain ⟨t1, ht1, he⟩ := he
    obtain ⟨c1, hc1, hv1, hf1, _, _⟩ := Topology.set_next_pointwise t a b t1 ht1 k c hk
    obtain ⟨c', hc', hv', hf'⟩ := ih t1 t' he k c1 hc1
    exact ⟨c', hc', hv'.trans hv1, hf'.trans hf1⟩

/-- If every queued re-link on cell `k` re-assigns the same target `b`, a
cell whose `next` already is `b` keeps it through `commitCache`. -/
theorem commitCache_next_stable :
    ∀ (cache : List (Hnd × Hnd)) (t t' : Topology),
      commitCache t cache = some t' →
      ∀ (k : Nat) (b : Hnd) (c : HalfedgeConnectivity),
        t.hconn_.get? k = some c → c.next_halfedge_ = b →
        (∀ p ∈ cache, p.1 = some k → p.2 = b) →
        ∃ c', t'.hconn_.get? k = some c' ∧ c'.next_halfedge_ = b := by
  intro cache
  induction cache with
  | nil =>
    intro t t' he k b c hk hb _
    unfold commitCache at he
    simp at he
    subst he
    exact ⟨c, hk, hb⟩
  | cons e rest ih =>
    intro t t' he k b c hk hb hall
    obtain ⟨a, nh⟩ := e
    unfold commitCache at he
    simp only [Option.bind_eq_bind, Option.bind_eq_some] at he
    obtain ⟨t1, ht1, he⟩ := he
    obtain ⟨c1, hc1, _, _, hne, heq⟩ := Topology.set_next_pointwise t a nh t1 ht1 k c hk
    by_cases ha : a = some k
    · have hnb : nh = b := hall (a, nh) (List.mem_cons_self _ _) ha
      exact ih t1 t' he k b c1 hc1 ((heq ha).trans hnb)
        (fun p hp => hall p (List.mem_cons_of_mem _ hp))
    · exact ih t1 t' he k b c1 hc1 ((hne ha).trans hb)
        (fun p hp => hall p (List.mem_cons_of_mem _ hp))

/-- After `commitCache`, a cell `k` that appears as the first component of a
queued re-link — always with the same target `b` — has `next = b`. -/
theorem commitCache_next :
    ∀ (cache : List (Hnd × Hnd)) (t t' : Topology),
      commitCache t cache = some t' →
      ∀ (k : Nat) (b : Hnd), (some k, b) ∈ cache →
        (∀ p ∈ cache, p.1 = some k → p.2 = b) →
        ∃ c', t'.hconn_.get? k = some c' ∧ c'.next_halfedge_ = b := by
  intro cache
  induction cache with
  | nil =>
    intro t t' _ k b hmem _
    cases hmem
  | cons e rest ih =>
    intro t t' he k b hmem hall
    obtain ⟨a, nh⟩ := e
    unfold commitCache at he
    simp only [Option.bind_eq_bind, Option.bind_eq_some] at he
    obtain ⟨t1, ht1, he⟩ := he
    by_cases ha : a = some k
    · have hnb : nh = b := hall (a, nh) (List.mem_cons_self _ _) ha
      -- the set at the head already wrote `b`; later writes keep it
      obtain ⟨c, hk⟩ := Topology.set_next_src t k nh t1 (ha ▸ ht1)
      obtain ⟨c1, hc1, _, _, _, heq⟩ := Topology.set_next_pointwise t a nh t1 ht1 k c hk
      exact commitCache_next_stable rest t1 t' he k b c1 hc1 ((heq ha).trans hnb)
        (fun p hp => hall p (List.mem_cons_of_mem _ hp))
    · have hmem' : (some k, b) ∈ rest := by
        rcases List.mem_cons.mp hmem with hh | ht
        · exfalso
          apply ha
          have := congrArg Prod.fst hh
          exact this.symm
        · exact ht
      exact ih t1 t' he k b hmem' (fun p hp => hall p (List.mem_cons_of_mem _ hp))

/-- `adjustPhase` with an all-false flag list leaves the topology alone. -/
theorem adjustPhase_allfalse (vs : List Nat) (n fuel : Nat) :
    ∀ (is : List Nat), (∀ i ∈ is, i < n) → ∀ (t : Topology),
      adjustPhase vs (List.replicate n false) fuel t is = some t := by
  intro is
  induction is with
  | nil => intro _ t; rfl
  | cons i rest ih =>
    intro hmem t
    have hi : i < n := hmem i (List.mem_cons_self i rest)
    unfold adjustPhase
    have hget : (List.replicate n false).get? i = some false := by
      rw [List.get?_eq_getElem?, List.getElem?_replicate, if_pos hi]
    rw [Option.bind_eq_bind, hget, Option.some_bind]
    simp only [Bool.false_eq_true, if_false]
    exact ih (fun x hx => hmem x (List.mem_cons_of_mem i hx)) t

/-- The inner circulation of `vertices_around` on a topology whose even
cells form the fresh `n`-gon cycle: starting at cell `2j` it emits
`j+1, …, n-1` and stops at `2(n-1)`. -/
theorem vafLoop_fresh (t : Topology) (n : Nat)
    (hvert : ∀ e, e < n → t.to_vertex (some (2*e)) = some (some ((e+1) % n)))
    (hnext : ∀ e, e < n → t.next_halfedge (some (2*e)) = some (some (2*((e+1) % n)))) :
    ∀ (r j fuel : Nat), j < n → n-1-j = r → r < fuel →
      vafLoop t (some (2*(n-1))) (some (2*j)) fuel
        = some ((List.range' (j+1) (n-1-j)).map (fun v => some v)) := by
  intro r
  induction r with
  | zero =>
    intro j fuel hj hr hfuel
    have hjn : j = n-1 := by omega
    subst hjn
    cases fuel with
    | zero => omega
    | succ s =>
      unfold vafLoop
      rw [if_pos rfl]
      have : n - 1 - (n-1) = 0 := by omega
      rw [this]
      rfl
  | succ r' ih =>
    intro j fuel hj hr hfuel
    cases fuel with
    | zero => omega
    | succ s =>
      unfold vafLoop
      have hne : ¬ ((some (2*j) : Hnd) = some (2*(n-1))) := by
        simp only [Option.some.injEq]
        omega
      rw [if_neg hne]
      have hj1 : (j+1) % n = j + 1 := Nat.mod_eq_of_lt (by omega)
      rw [Option.bind_eq_bind, hvert j (by omega), Option.some_bind,
        Option.bind_eq_bind, hnext j (by omega), Option.some_bind, hj1]
      rw [ih (j+1) s (by omega) (by omega) (by omega), Option.some_bind']
      have hrange : List.range' (j+1) (n-1-j) = (j+1) :: List.range' (j+2) (n-1-(j+1)) := by
        have h1 : n-1-j = (n-1-(j+1)) + 1 := by omega
        rw [h1, List.range'_succ]
      rw [hrange]
      rfl

/-- Collecting `vertices_around` of face 0 on a topology whose even cells
form the fresh `n`-gon cycle yields `0, 1, …, n-1`. -/
theorem vertices_around_face_fresh (t : Topology) (n : Nat) (hn : 1 ≤ n)
    (hfconn : t.fconn_ = [⟨some (2*(n-1))⟩])
    (hvert : ∀ e, e < n → t.to_vertex (some (2*e)) = some (some ((e+1) % n)))
    (hnext : ∀ e, e < n → t.next_halfedge (some (2*e)) = some (some (2*((e+1) % n))))
    (fuel : Nat) (hfuel : n ≤ fuel) :
    t.vertices_around_face (some 0) fuel = some ((List.range n).map some) := by
  unfold Topology.vertices_around_face Topology.face_halfedge
  rw [hfconn]
  have hmod : (n-1+1) % n = 0 := by
    have h1 : n - 1 + 1 = n := by omega
    rw [h1, Nat.mod_self]
  simp only [Option.bind_eq_bind, Option.some_bind, List.get?_cons_zero]
  rw [Option.pure_def, Option.some_bind']
  rw [hvert (n-1) (by omega), Option.some_bind', hmod]
  rw [hnext (n-1) (by omega), Option.some_bind', hmod]
  rw [vafLoop_fresh t n hvert hnext (n-1) 0 fuel (by omega) (by omega) (by omega),
    Option.some_bind']
  have hrange : List.range n = 0 :: List.range' 1 (n-1) := by
    rw [List.range_eq_range']
    have h1 : n = (n-1) + 1 := by omega
    conv_lhs => rw [h1]
    rw [List.range'_succ]
  rw [hrange]
  have h2 : n - 1 - 0 = n - 1 := by omega
  rw [h2]
  rfl

/-! Final assembly for claim C3. -/

theorem mkMesh_add_vertex (k : Nat) : (mkMesh k).add_vertex = (mkMesh (k+1), k) := by
  unfold Mesh.add_vertex mkMesh
  simp [List.replicate_succ', Properties.new, PropertyContainer.new, PropertyContainer.push]

theorem mkMesh_add_vertices :
    ∀ (n k : Nat), (mkMesh k).add_vertices n = (mkMesh (k+n), List.range' k n) := by
  intro n
  induction n with
  | zero => intro k; rfl
  | succ n ih =>
    intro k
    have hstep : (mkMesh k).add_vertices (n+1)
        = (((mkMesh k).add_vertex.1.add_vertices n).1,
           (mkMesh k).add_vertex.2 :: ((mkMesh k).add_vertex.1.add_vertices n).2) := rfl
    rw [hstep]
    simp only [mkMesh_add_vertex, ih (k+1)]
    rw [List.range'_succ]
    have h1 : k + 1 + n = k + (n+1) := by omega
    rw [h1]

theorem new_add_vertices (n : Nat) :
    Mesh.new.add_vertices n = (mkMesh n, List.range n) := by
  have h0 : Mesh.new = mkMesh 0 := rfl
  rw [h0, mkMesh_add_vertices n 0, List.range_eq_range', Nat.zero_add]

/-- `set_next_halfedge` touches only `hconn_`. -/
theorem Topology.set_next_vf (t : Topology) (a nh : Hnd) (t' : Topology)
    (he : t.set_next_halfedge a nh = some t') :
    t'.vconn_ = t.vconn_ ∧ t'.fconn_ = t.fconn_ := by
  unfold Topology.set_next_halfedge at he
  simp only [Option.bind_eq_bind, Option.bind_eq_some, Option.pure_def,
    Option.some.injEq] at he
  obtain ⟨i, hi, c, hc, j, hj, c', hc', ht⟩ := he
  subst ht
  exact ⟨rfl, rfl⟩

/-- `commitCache` touches only `hconn_`. -/
theorem commitCache_vf :
    ∀ (cache : List (Hnd × Hnd)) (t t' : Topology),
      commitCache t cache = some t' → t'.vconn_ = t.vconn_ ∧ t'.fconn_ = t.fconn_ := by
  intro cache
  induction cache with
  | nil =>
    intro t t' he
    unfold commitCache at he
    simp at he
    subst he
    exact ⟨rfl, rfl⟩
  | cons e rest ih =>
    intro t t' he
    obtain ⟨a, b⟩ := e
    unfold commitCache at he
    simp only [Option.bind_eq_bind, Option.bind_eq_some] at he
    obtain ⟨t1, ht1, he⟩ := he
    obtain ⟨hv1, hf1⟩ := Topology.set_next_vf t a b t1 ht1
    obtain ⟨hv, hf⟩ := ih t1 t' he
    exact ⟨hv.trans hv1, hf.trans hf1⟩

/-- The queued re-link of the inner halfedge `2e` is in the full cache. -/
theorem cacheF_mem (n e : Nat) (he : e < n) :
    ((some (2*e) : Hnd), (some (2*((e+1) % n)) : Hnd)) ∈ cacheF n n := by
  unfold cacheF
  rw [List.mem_flatMap]
  refine ⟨e, List.mem_range.mpr he, ?_⟩
  unfold cacheStep
  simp

/-- Every queued re-link whose source is the inner halfedge `2e` targets
the next inner halfedge `2 * ((e+1) % n)`. -/
theorem cacheF_unique (n e : Nat) :
    ∀ p ∈ cacheF n n, p.1 = some (2*e) → p.2 = some (2*((e+1) % n)) := by
  intro p hp h1
  unfold cacheF at hp
  rw [List.mem_flatMap] at hp
  obtain ⟨i, hi, hp⟩ := hp
  unfold cacheStep at hp
  rcases List.mem_cons.mp hp with h | h
  · subst h
    simp only [Option.some.injEq] at h1
    omega
  · rcases List.mem_cons.mp h with h' | h'
    · subst h'
      simp only [Option.some.injEq] at h1
      have : i = e := by omega
      subst this
      rfl
    · cases h'

/-- The state the setup loop leaves the inner halfedges in: inner cell `2e`
targets vertex `(e+1) % n` and carries face `0`. -/
theorem stMeshFin_even (n e : Nat) (he : e < n) :
    (stMeshFin n).topology.hconn_.get? (2*e)
      = some ⟨some ((e+1) % n), some 0, none, none⟩ := by
  unfold stMeshFin
  rw [get?_map_range (stHC n n) (show 2*e < 2*n by omega)]
  have h1 : 2*e % 2 = 0 := by omega
  have h2 : 2*e / 2 = e := by omega
  unfold stHC
  rw [if_pos (show 2*e % 2 = 0 ∧ 2*e/2 < n by omega), h2]

/-- The facts about the committed topology `t5` needed to run the
`vertices_around` circulator on the fresh face. -/
theorem commit_fresh_facts (n : Nat) (t5 : Topology)
    (hc : commitCache (stMeshFin n).topology (cacheF n n) = some t5) :
    t5.fconn_ = [⟨some (2*(n-1))⟩]
    ∧ (∀ e, e < n → t5.to_vertex (some (2*e)) = some (some ((e+1) % n)))
    ∧ (∀ e, e < n → t5.next_halfedge (some (2*e)) = some (some (2*((e+1) % n)))) := by
  refine ⟨(commitCache_vf (cacheF n n) _ t5 hc).2, ?_, ?_⟩
  · intro e he
    obtain ⟨c', hc', hv', _⟩ := commitCache_vertex_face (cacheF n n) _ t5 hc (2*e)
      ⟨some ((e+1) % n), some 0, none, none⟩ (stMeshFin_even n e he)
    unfold Topology.to_vertex
    rw [Option.bind_eq_bind, Option.some_bind, Option.bind_eq_bind, hc',
      Option.some_bind, hv']
    rfl
  · intro e he
    obtain ⟨c', hc', hn'⟩ := commitCache_next (cacheF n n) _ t5 hc (2*e)
      (some (2*((e+1) % n))) (cacheF_mem n e he) (cacheF_unique n e)
    unfold Topology.next_halfedge
    rw [Option.bind_eq_bind, Option.some_bind, Option.bind_eq_bind, hc',
      Option.some_bind, hn']
    rfl

theorem mkMesh_edMesh (n : Nat) : mkMesh n = edMesh n 0 := by
  unfold mkMesh edMesh
  simp

theorem hvF_zero (n : Nat) :
    (List.range n).map (fun _ => (none : Option Nat)) = hvF n 0 := by
  unfold hvF
  simp [List.range_eq_range']

theorem cacheF_zero : ∀ n : Nat, ([] : List (Hnd × Hnd)) = cacheF n 0 := by
  intro n
  rfl

/-- The mesh after face allocation on a fresh `n`-gon is `stMesh n 0`. -/
theorem m3_eq_stMesh (n : Nat) :
    (⟨⟨List.replicate n VertexConnectivity.new, (List.range (2*n)).map (edF n),
       [(⟨some (2*(n-1))⟩ : FaceConnectivity)]⟩, Properties.new⟩ : Mesh)
      = stMesh n 0 := by
  unfold stMesh
  congr 1
  congr 1
  · have hc : ∀ v ∈ List.range n, stVC n 0 v = VertexConnectivity.new := by
      intro v _
      unfold stVC VertexConnectivity.new
      rw [if_neg]
      omega
    rw [List.map_congr_left hc, List.map_const', List.length_range]
  · apply List.map_congr_left
    intro h _
    unfold stHC
    rw [if_neg]
    omega

/-- `add_face` on the `n` fresh vertices `0 .. n-1`, fully computed up to
the re-link commit: the commit runs on `stMeshFin n` with the full cache,
the adjustment pass is a no-op, and the new face is `0`. -/
theorem add_face_fresh (n fuel : Nat) (hn : 2 ≤ n) :
    (mkMesh n).add_face (List.range n) fuel
      = (commitCache (stMeshFin n).topology (cacheF n n)).bind
          (fun t5 => some (some 0, ⟨t5, Properties.new⟩)) := by
  unfold Mesh.add_face
  simp only [List.length_range]
  rw [Option.bind_eq_bind,
    addFacePre_fresh n fuel (by omega) (List.range n) (fun i hi => List.mem_range.mp hi)]
  simp only [Option.bind_eq_bind, Option.some_bind, Option.some_bind']
  rw [addFaceRelink_fresh (mkMesh n).topology n fuel (by omega) (List.range n)
      (fun i hi => List.mem_range.mp hi)]
  simp only [Option.bind_eq_bind, Option.some_bind, Option.some_bind']
  have hE := addFaceEdges_fresh n hn n 0 (by omega)
  rw [← List.range_eq_range'] at hE
  rw [← mkMesh_edMesh, ← hvF_zero] at hE
  rw [hE]
  simp only [Option.bind_eq_bind, Option.some_bind, Option.some_bind', edMesh]
  have hget : (hvF n n).get? (n-1) = some (some (2*(n-1))) := by
    rw [hvF_full n]
    exact get?_map_range (fun i => some (2*i)) (show n-1 < n by omega)
  rw [hget]
  simp only [Option.bind_eq_bind, Option.some_bind, Option.some_bind', List.nil_append, List.length_cons, List.length_nil,
    Nat.zero_add, Nat.sub_self, List.set_cons_zero]
  have hprops : ({ vprop_ := Properties.new.vprop_, hprop_ := Properties.new.hprop_,
                   eprop_ := Properties.new.eprop_, fprop_ := Properties.new.fprop_.push }
        : Properties)
      = Properties.new := rfl
  rw [hprops, m3_eq_stMesh n, cacheF_zero n,
    addFaceSetup_fresh n hn (List.replicate n false)]
  simp only [Option.bind_eq_bind, Option.some_bind, Option.some_bind']
  cases hc : commitCache (stMeshFin n).topology (cacheF n n) with
  | none => rfl
  | some t5 =>
    simp only [Option.bind_eq_bind, Option.some_bind, Option.some_bind']
    rw [adjustPhase_allfalse (List.range n) n fuel (List.range n)
      (fun i hi => List.mem_range.mp hi) t5]
    rfl

/-- Claim C3: after creating `n ≥ 3` distinct fresh vertices with
`add_vertices` (repeated `add_vertex`) and a successful
`add_face([V0, …, Vn-1]) = some f`, iterating `vertices_around(f)` yields
exactly the input sequence `V0, V1, …, Vn-1` in that order — `n` elements
for an `n`-gon. -/
theorem vertices_around_added_face (n fuel fuel' : Nat) (hn : 3 ≤ n)
    (hfuel' : n ≤ fuel') (f : Nat) (m' : Mesh)
    (hadd : ((Mesh.new.add_vertices n).1).add_face ((Mesh.new.add_vertices n).2) fuel
              = some (some f, m')) :
    m'.topology.vertices_around_face (some f) fuel'
      = some (((Mesh.new.add_vertices n).2).map some) := by
  rw [new_add_vertices n] at hadd ⊢
  rw [add_face_fresh n fuel (by omega)] at hadd
  cases hc : commitCache (stMeshFin n).topology (cacheF n n) with
  | none =>
    rw [hc] at hadd
    exact absurd hadd (by simp)
  | some t5 =>
    rw [hc, Option.some_bind'] at hadd
    simp only [Option.some.injEq, Prod.mk.injEq] at hadd
    obtain ⟨hf, hm⟩ := hadd
    obtain ⟨hfc, hvert, hnext⟩ := commit_fresh_facts n t5 hc
    have hf0 : f = 0 := by
      cases hf'' : f with
      | zero => rfl
      | succ k => rw [hf''] at hf; cases hf
    subst hf0
    rw [← hm]
    exact vertices_around_face_fresh t5 n (by omega) hfc hvert hnext fuel' hfuel'

/-- Witness for C3 at `n = 3`: the single-triangle construction succeeds
with face `0`, and circulating `vertices_around` on the result reproduces
the vertex sequence `[0, 1, 2]`. -/
theorem vertices_around_added_face_witness :
    ((Mesh.new.add_vertices 3).1).add_face ((Mesh.new.add_vertices 3).2) 100
        = some (some 0, triMesh)
    ∧ triMesh.topology.vertices_around_face (some 0) 10
        = some (((Mesh.new.add_vertices 3).2).map some) :=
  ⟨by decide,
   vertices_around_added_face 3 100 10 (by decide) (by decide) 0 triMesh (by decide)⟩


/-! Development for claim C4: `add_face` over three fresh vertices of an
arbitrary base mesh, and the rejection of cyclic re-insertions. -/

theorem get?_append_add {α : Type} (L R : List α) (k : Nat) :
    (L ++ R).get? (L.length + k) = R.get? k := by
  rw [List.get?_append_right (by omega)]
  congr 1
  omega

theorem set_append_add {α : Type} (L R : List α) (x : α) (k : Nat) :
    (L ++ R).set (L.length + k) x = L ++ R.set k x := by
  induction L with
  | nil => simp
  | cons a t ih =>
    have h1 : (a :: t).length + k = (t.length + k) + 1 := by
      simp
      omega
    rw [h1]
    simp [ih]

/-- A vertex whose connectivity row holds no outgoing halfedge. -/
theorem fresh_halfedge (t : Topology) (v : Nat)
    (hv : t.vconn_.get? v = some ⟨none⟩) :
    t.halfedge (some v) = some none := by
  unfold Topology.halfedge
  rw [Option.bind_eq_bind, Option.some_bind, Option.bind_eq_bind, hv,
    Option.some_bind]
  rfl

theorem fresh_is_boundary_vertex (t : Topology) (v : Nat)
    (hv : t.vconn_.get? v = some ⟨none⟩) :
    t.is_boundary_vertex (some v) = some true := by
  unfold Topology.is_boundary_vertex
  rw [Option.bind_eq_bind, fresh_halfedge t v hv, Option.some_bind]
  rfl

theorem fresh_find_halfedge (t : Topology) (v : Nat)
    (hv : t.vconn_.get? v = some ⟨none⟩) (e : Hnd) (fuel : Nat) :
    t.find_halfedge (some v) e fuel = some none := by
  unfold Topology.find_halfedge
  rw [Option.bind_eq_bind, fresh_halfedge t v hv, Option.some_bind]
  rfl

/-- The pre-check pass accepts three fresh distinct vertices of any mesh. -/
theorem addFacePre_fresh3 (t : Topology) (a b c : Nat) (fuel : Nat)
    (hva : t.vconn_.get? a = some ⟨none⟩)
    (hvb : t.vconn_.get? b = some ⟨none⟩)
    (hvc : t.vconn_.get? c = some ⟨none⟩) :
    addFacePre t [a, b, c] 3 fuel [0, 1, 2]
      = some (some ([none, none, none], [true, true, true])) := by
  have h2 : addFacePre t [a, b, c] 3 fuel [2]
      = some (some ([none], [true])) := by
    unfold addFacePre
    rw [show ([a,b,c].get? 2) = some c from rfl, Option.bind_eq_bind,
      Option.some_bind, fresh_is_boundary_vertex t c hvc]
    simp only [Option.bind_eq_bind, Option.some_bind, Bool.not_true,
      Bool.false_eq_true, if_false]
    rw [show ((2+1) % 3) = 0 from rfl, show ([a,b,c].get? 0) = some a from rfl,
      Option.some_bind, fresh_find_halfedge t c hvc (some a) fuel,
      Option.some_bind]
    rfl
  have h1 : addFacePre t [a, b, c] 3 fuel [1, 2]
      = some (some ([none, none], [true, true])) := by
    unfold addFacePre
    rw [show ([a,b,c].get? 1) = some b from rfl, Option.bind_eq_bind,
      Option.some_bind, fresh_is_boundary_vertex t b hvb]
    simp only [Option.bind_eq_bind, Option.some_bind, Bool.not_true,
      Bool.false_eq_true, if_false]
    rw [show ((1+1) % 3) = 2 from rfl, show ([a,b,c].get? 2) = some c from rfl,
      Option.some_bind, fresh_find_halfedge t b hvb (some c) fuel,
      Option.some_bind, h2]
    rfl
  unfold addFacePre
  rw [show ([a,b,c].get? 0) = some a from rfl, Option.bind_eq_bind,
    Option.some_bind, fresh_is_boundary_vertex t a hva]
  simp only [Option.bind_eq_bind, Option.some_bind, Bool.not_true,
    Bool.false_eq_true, if_false]
  rw [show ((0+1) % 3) = 1 from rfl, show ([a,b,c].get? 1) = some b from rfl,
    Option.some_bind, fresh_find_halfedge t a hva (some b) fuel,
    Option.some_bind, h1]
  rfl

/-- The re-link pre-pass queues nothing when all three edges are new. -/
theorem addFaceRelink_allnew3 (t : Topology) (hvec : List (Option Nat))
    (fuel : Nat) :
    addFaceRelink t 3 hvec [true, true, true] fuel [0, 1, 2]
      = some (some []) := rfl

theorem get?_append_at {α : Type} (L R : List α) (j k : Nat)
    (h : j = L.length + k) : (L ++ R).get? j = R.get? k := by
  subst h
  exact get?_append_add L R k

theorem set_append_at {α : Type} (L R : List α) (x : α) (j k : Nat)
    (h : j = L.length + k) : (L ++ R).set j x = L ++ R.set k x := by
  subst h
  exact set_append_add L R x k

/-- The six halfedge records of the three fresh edges: inner/outer cells of
`(a,b)`, `(b,c)`, `(c,a)` with the given face fields. -/
def hc6 (a b c : Nat) (F0 F1 F2 : Option Nat) : List HalfedgeConnectivity :=
  [⟨some b, F0, none, none⟩, ⟨some a, none, none, none⟩,
   ⟨some c, F1, none, none⟩, ⟨some b, none, none, none⟩,
   ⟨some a, F2, none, none⟩, ⟨some c, none, none, none⟩]

/-- The mesh after the edge-creation phase on three fresh vertices. -/
def edges3 (m : Mesh) (a b c : Nat) : Mesh :=
  ⟨⟨m.topology.vconn_, m.topology.hconn_ ++ hc6 a b c none none none,
    m.topology.fconn_⟩,
   ⟨m.properties.vprop_, m.properties.hprop_.push.push.push.push.push.push,
    m.properties.eprop_.push.push.push, m.properties.fprop_⟩⟩

theorem newEdgeResult_hconn_len (m : Mesh) (a b : Nat) :
    (newEdgeResult m a b).topology.hconn_.length
      = m.topology.hconn_.length + 2 := by
  simp [newEdgeResult]

/-- The edge-creation phase on three fresh distinct vertices appends the six
records of `hc6` and fills `hvec` with the three inner halfedges. -/
theorem addFaceEdges_fresh3 (m : Mesh) (a b c : Nat)
    (hab : a ≠ b) (hbc : b ≠ c) (hca : c ≠ a) :
    addFaceEdges m [a,b,c] 3 [none,none,none] [true,true,true] [0,1,2]
      = some (edges3 m a b c,
          [some m.topology.hconn_.length, some (m.topology.hconn_.length + 2),
           some (m.topology.hconn_.length + 4)]) := by
  have e1 := Mesh.new_edge_eq m a b hab
  have e2 := Mesh.new_edge_eq (newEdgeResult m a b) b c hbc
  have e3 := Mesh.new_edge_eq (newEdgeResult (newEdgeResult m a b) b c) c a hca
  rw [newEdgeResult_hconn_len] at e2
  rw [newEdgeResult_hconn_len, newEdgeResult_hconn_len] at e3
  have hE3 : newEdgeResult (newEdgeResult (newEdgeResult m a b) b c) c a
      = edges3 m a b c := by
    simp [newEdgeResult, edges3, hc6]
  have harith : m.topology.hconn_.length + 2 + 2 = m.topology.hconn_.length + 4 := by
    omega
  rw [harith] at e3
  rw [hE3] at e3
  unfold addFaceEdges
  rw [show ([true,true,true].get? 0) = some true from rfl, Option.bind_eq_bind,
    Option.some_bind, if_pos rfl]
  norm_num [List.get?_cons_zero, List.get?_cons_succ, Option.bind_eq_bind,
    Option.some_bind]
  rw [e1]
  simp only [Option.some_bind, List.set_cons_zero]
  unfold addFaceEdges
  rw [show ([true,true,true].get? 1) = some true from rfl, Option.bind_eq_bind,
    Option.some_bind, if_pos rfl]
  norm_num [List.get?_cons_zero, List.get?_cons_succ, Option.bind_eq_bind,
    Option.some_bind]
  rw [e2]
  simp only [Option.some_bind, List.set_cons_zero, List.set_cons_succ]
  unfold addFaceEdges
  rw [show ([true,true,true].get? 2) = some true from rfl, Option.bind_eq_bind,
    Option.some_bind, if_pos rfl]
  norm_num [List.get?_cons_zero, List.get?_cons_succ, Option.bind_eq_bind,
    Option.some_bind]
  rw [e3]
  simp only [Option.some_bind, List.set_cons_zero, List.set_cons_succ]
  rfl

/-- Common shape of the mesh states during the setup loop on three fresh
vertices: parametrized by the vertex rows and the three inner face fields. -/
def face3mesh (m : Mesh) (a b c : Nat) (vc : List VertexConnectivity)
    (F0 F1 F2 : Option Nat) : Mesh :=
  ⟨⟨vc, m.topology.hconn_ ++ hc6 a b c F0 F1 F2,
    m.topology.fconn_ ++ [⟨some (m.topology.hconn_.length + 4)⟩]⟩,
   ⟨m.properties.vprop_, m.properties.hprop_.push.push.push.push.push.push,
    m.properties.eprop_.push.push.push, m.properties.fprop_.push⟩⟩

/-- Corner 0 of the setup loop: both edges new, vertex `b` fresh. -/
theorem setupStep3_0 (m : Mesh) (a b c : Nat) (cache : List (Hnd × Hnd))
    (adj : List Bool) (vc : List VertexConnectivity)
    (hvb : vc.get? b = some ⟨none⟩)
    (hL : m.topology.hconn_.length % 2 = 0) :
    setupStep m.topology.fconn_.length [a,b,c] 3
        [some m.topology.hconn_.length, some (m.topology.hconn_.length + 2),
         some (m.topology.hconn_.length + 4)]
        [true,true,true] (face3mesh m a b c vc none none none) cache adj 0
      = some (face3mesh m a b c (vc.set b ⟨some (m.topology.hconn_.length + 1)⟩)
            (some m.topology.fconn_.length) none none,
          cache ++ [(some (m.topology.hconn_.length + 3),
                     some (m.topology.hconn_.length + 1)),
                    (some m.topology.hconn_.length,
                     some (m.topology.hconn_.length + 2))],
          adj) := by
  unfold setupStep
  norm_num [List.get?_cons_zero, List.get?_cons_succ, Option.bind_eq_bind,
    Option.some_bind]
  unfold setupLink Topology.opposite_halfedge
  simp only [Option.bind_eq_bind, Option.some_bind, Option.some_bind']
  rw [if_neg (show ¬ ((m.topology.hconn_.length + 2) % 2 = 1) by omega),
    if_neg (show ¬ (m.topology.hconn_.length % 2 = 1) by omega)]
  simp only [Option.some_bind, Option.some_bind', Bool.not_true,
    Bool.false_eq_true, if_false]
  rw [show (face3mesh m a b c vc none none none).topology.halfedge (some b)
      = some none from fresh_halfedge _ b hvb]
  simp only [Option.some_bind, Option.some_bind']
  unfold Topology.set_halfedge
  simp only [Option.bind_eq_bind, Option.some_bind, Option.some_bind']
  rw [show (face3mesh m a b c vc none none none).topology.vconn_.get? b
      = some ⟨none⟩ from hvb]
  simp only [Option.some_bind, Option.some_bind']
  unfold Topology.set_face
  simp only [Option.bind_eq_bind, Option.some_bind, Option.some_bind']
  simp only [Option.pure_def, Option.some_bind, Option.some_bind']
  rw [show (face3mesh m a b c vc none none none).topology.hconn_
      = m.topology.hconn_ ++ hc6 a b c none none none from rfl]
  rw [get?_append_at m.topology.hconn_ (hc6 a b c none none none)
      m.topology.hconn_.length 0 (by omega),
    show (hc6 a b c none none none).get? 0
      = some ⟨some b, none, none, none⟩ from rfl]
  simp only [Option.some_bind, Option.some_bind']
  rw [set_append_at m.topology.hconn_ (hc6 a b c none none none) _
      m.topology.hconn_.length 0 (by omega)]
  rw [show m.topology.hconn_.length + 2 + 1 = m.topology.hconn_.length + 3 from by omega]
  simp only [List.append_assoc]
  rfl

/-- Corner 1 of the setup loop: both edges new, vertex `c` fresh. -/
theorem setupStep3_1 (m : Mesh) (a b c : Nat) (cache : List (Hnd × Hnd))
    (adj : List Bool) (vc : List VertexConnectivity) (F0 : Option Nat)
    (hvc : vc.get? c = some ⟨none⟩)
    (hL : m.topology.hconn_.length % 2 = 0) :
    setupStep m.topology.fconn_.length [a,b,c] 3
        [some m.topology.hconn_.length, some (m.topology.hconn_.length + 2),
         some (m.topology.hconn_.length + 4)]
        [true,true,true] (face3mesh m a b c vc F0 none none) cache adj 1
      = some (face3mesh m a b c (vc.set c ⟨some (m.topology.hconn_.length + 3)⟩)
            F0 (some m.topology.fconn_.length) none,
          cache ++ [(some (m.topology.hconn_.length + 5),
                     some (m.topology.hconn_.length + 3)),
                    (some (m.topology.hconn_.length + 2),
                     some (m.topology.hconn_.length + 4))],
          adj) := by
  unfold setupStep
  norm_num [List.get?_cons_zero, List.get?_cons_succ, Option.bind_eq_bind,
    Option.some_bind]
  unfold setupLink Topology.opposite_halfedge
  simp only [Option.bind_eq_bind, Option.some_bind, Option.some_bind']
  rw [if_neg (show ¬ ((m.topology.hconn_.length + 4) % 2 = 1) by omega),
    if_neg (show ¬ ((m.topology.hconn_.length + 2) % 2 = 1) by omega)]
  simp only [Option.some_bind, Option.some_bind', Bool.not_true,
    Bool.false_eq_true, if_false]
  rw [show (face3mesh m a b c vc F0 none none).topology.halfedge (some c)
      = some none from fresh_halfedge _ c hvc]
  simp only [Option.some_bind, Option.some_bind']
  unfold Topology.set_halfedge
  simp only [Option.bind_eq_bind, Option.some_bind, Option.some_bind']
  rw [show (face3mesh m a b c vc F0 none none).topology.vconn_.get? c
      = some ⟨none⟩ from hvc]
  simp only [Option.some_bind, Option.some_bind']
  unfold Topology.set_face
  simp only [Option.bind_eq_bind, Option.some_bind, Option.some_bind']
  simp only [Option.pure_def, Option.some_bind, Option.some_bind']
  rw [show (face3mesh m a b c vc F0 none none).topology.hconn_
      = m.topology.hconn_ ++ hc6 a b c F0 none none from rfl]
  rw [get?_append_at m.topology.hconn_ (hc6 a b c F0 none none)
      (m.topology.hconn_.length + 2) 2 (by omega),
    show (hc6 a b c F0 none none).get? 2
      = some ⟨some c, none, none, none⟩ from rfl]
  simp only [Option.some_bind, Option.some_bind']
  rw [set_append_at m.topology.hconn_ (hc6 a b c F0 none none) _
      (m.topology.hconn_.length + 2) 2 (by omega)]
  rw [show m.topology.hconn_.length + 4 + 1 = m.topology.hconn_.length + 5 from by omega,
    show m.topology.hconn_.length + 2 + 1 = m.topology.hconn_.length + 3 from by omega]
  simp only [List.append_assoc]
  rfl

/-- Corner 2 of the setup loop: both edges new, vertex `a` fresh. -/
theorem setupStep3_2 (m : Mesh) (a b c : Nat) (cache : List (Hnd × Hnd))
    (adj : List Bool) (vc : List VertexConnectivity) (F0 F1 : Option Nat)
    (hva : vc.get? a = some ⟨none⟩)
    (hL : m.topology.hconn_.length % 2 = 0) :
    setupStep m.topology.fconn_.length [a,b,c] 3
        [some m.topology.hconn_.length, some (m.topology.hconn_.length + 2),
         some (m.topology.hconn_.length + 4)]
        [true,true,true] (face3mesh m a b c vc F0 F1 none) cache adj 2
      = some (face3mesh m a b c (vc.set a ⟨some (m.topology.hconn_.length + 5)⟩)
            F0 F1 (some m.topology.fconn_.length),
          cache ++ [(some (m.topology.hconn_.length + 1),
                     some (m.topology.hconn_.length + 5)),
                    (some (m.topology.hconn_.length + 4),
                     some m.topology.hconn_.length)],
          adj) := by
  unfold setupStep
  norm_num [List.get?_cons_zero, List.get?_cons_succ, Option.bind_eq_bind,
    Option.some_bind]
  unfold setupLink Topology.opposite_halfedge
  simp only [Option.bind_eq_bind, Option.some_bind, Option.some_bind']
  rw [if_neg (show ¬ (m.topology.hconn_.length % 2 = 1) by omega),
    if_neg (show ¬ ((m.topology.hconn_.length + 4) % 2 = 1) by omega)]
  simp only [Option.some_bind, Option.some_bind', Bool.not_true,
    Bool.false_eq_true, if_false]
  rw [show (face3mesh m a b c vc F0 F1 none).topology.halfedge (some a)
      = some none from fresh_halfedge _ a hva]
  simp only [Option.some_bind, Option.some_bind']
  unfold Topology.set_halfedge
  simp only [Option.bind_eq_bind, Option.some_bind, Option.some_bind']
  rw [show (face3mesh m a b c vc F0 F1 none).topology.vconn_.get? a
      = some ⟨none⟩ from hva]
  simp only [Option.some_bind, Option.some_bind']
  unfold Topology.set_face
  simp only [Option.bind_eq_bind, Option.some_bind, Option.some_bind']
  simp only [Option.pure_def, Option.some_bind, Option.some_bind']
  rw [show (face3mesh m a b c vc F0 F1 none).topology.hconn_
      = m.topology.hconn_ ++ hc6 a b c F0 F1 none from rfl]
  rw [get?_append_at m.topology.hconn_ (hc6 a b c F0 F1 none)
      (m.topology.hconn_.length + 4) 4 (by omega),
    show (hc6 a b c F0 F1 none).get? 4
      = some ⟨some a, none, none, none⟩ from rfl]
  simp only [Option.some_bind, Option.some_bind']
  rw [set_append_at m.topology.hconn_ (hc6 a b c F0 F1 none) _
      (m.topology.hconn_.length + 4) 4 (by omega)]
  rw [show m.topology.hconn_.length + 4 + 1 = m.topology.hconn_.length + 5 from by omega]
  simp only [List.append_assoc]
  rfl

/-- The vertex rows after the three setup corners. -/
def vc3 (m : Mesh) (a b c : Nat) : List VertexConnectivity :=
  ((m.topology.vconn_.set b ⟨some (m.topology.hconn_.length + 1)⟩).set c
      ⟨some (m.topology.hconn_.length + 3)⟩).set a
    ⟨some (m.topology.hconn_.length + 5)⟩

/-- The six re-links queued by the setup loop on three fresh vertices. -/
def cache3 (L : Nat) : List (Hnd × Hnd) :=
  [(some (L+3), some (L+1)), (some L, some (L+2)),
   (some (L+5), some (L+3)), (some (L+2), some (L+4)),
   (some (L+1), some (L+5)), (some (L+4), some L)]

/-- The whole setup loop on three fresh vertices. -/
theorem addFaceSetup_fresh3 (m : Mesh) (a b c : Nat) (adj : List Bool)
    (hva : m.topology.vconn_.get? a = some ⟨none⟩)
    (hvb : m.topology.vconn_.get? b = some ⟨none⟩)
    (hvc : m.topology.vconn_.get? c = some ⟨none⟩)
    (hab : a ≠ b) (hbc : b ≠ c) (hca : c ≠ a)
    (hL : m.topology.hconn_.length % 2 = 0) :
    addFaceSetup m.topology.fconn_.length [a,b,c] 3
        [some m.topology.hconn_.length, some (m.topology.hconn_.length + 2),
         some (m.topology.hconn_.length + 4)]
        [true,true,true]
        (face3mesh m a b c m.topology.vconn_ none none none) [] adj [0,1,2]
      = some (face3mesh m a b c (vc3 m a b c)
            (some m.topology.fconn_.length) (some m.topology.fconn_.length)
            (some m.topology.fconn_.length),
          cache3 m.topology.hconn_.length, adj) := by
  have hc1 : (m.topology.vconn_.set b
        ⟨some (m.topology.hconn_.length + 1)⟩).get? c = some ⟨none⟩ := by
    rw [List.get?_set_ne _ _ hbc]
    exact hvc
  have hc2 : ((m.topology.vconn_.set b ⟨some (m.topology.hconn_.length + 1)⟩).set c
        ⟨some (m.topology.hconn_.length + 3)⟩).get? a = some ⟨none⟩ := by
    rw [List.get?_set_ne _ _ hca, List.get?_set_ne _ _ (fun h => hab h.symm)]
    exact hva
  unfold addFaceSetup
  rw [Option.bind_eq_bind,
    setupStep3_0 m a b c [] adj m.topology.vconn_ hvb hL, Option.some_bind]
  unfold addFaceSetup
  rw [Option.bind_eq_bind,
    setupStep3_1 m a b c _ adj _ (some m.topology.fconn_.length) hc1 hL,
    Option.some_bind]
  unfold addFaceSetup
  rw [Option.bind_eq_bind,
    setupStep3_2 m a b c _ adj _ (some m.topology.fconn_.length)
      (some m.topology.fconn_.length) hc2 hL,
    Option.some_bind]
  unfold addFaceSetup
  rw [show ([] : List (Hnd × Hnd))
      ++ [(some (m.topology.hconn_.length + 3), some (m.topology.hconn_.length + 1)),
          (some m.topology.hconn_.length, some (m.topology.hconn_.length + 2))]
      ++ [(some (m.topology.hconn_.length + 5), some (m.topology.hconn_.length + 3)),
          (some (m.topology.hconn_.length + 2), some (m.topology.hconn_.length + 4))]
      ++ [(some (m.topology.hconn_.length + 1), some (m.topology.hconn_.length + 5)),
          (some (m.topology.hconn_.length + 4), some m.topology.hconn_.length)]
      = cache3 m.topology.hconn_.length from by simp [cache3]]
  rfl

/-- `add_face` over three fresh, distinct vertices of an arbitrary mesh,
computed up to the re-link commit: the commit runs on the explicit
`face3mesh` state with the six queued re-links, the adjustment pass is a
no-op, and the face handle is the old face count. -/
theorem add_face_fresh3 (m : Mesh) (a b c : Nat) (fuel : Nat)
    (hva : m.topology.vconn_.get? a = some ⟨none⟩)
    (hvb : m.topology.vconn_.get? b = some ⟨none⟩)
    (hvc : m.topology.vconn_.get? c = some ⟨none⟩)
    (hab : a ≠ b) (hbc : b ≠ c) (hca : c ≠ a)
    (hL : m.topology.hconn_.length % 2 = 0) :
    m.add_face [a,b,c] fuel
      = (commitCache (face3mesh m a b c (vc3 m a b c)
            (some m.topology.fconn_.length) (some m.topology.fconn_.length)
            (some m.topology.fconn_.length)).topology
          (cache3 m.topology.hconn_.length)).bind
          (fun t5 => some (some m.topology.fconn_.length,
            ⟨t5, (face3mesh m a b c (vc3 m a b c)
              (some m.topology.fconn_.length) (some m.topology.fconn_.length)
              (some m.topology.fconn_.length)).properties⟩)) := by
  unfold Mesh.add_face
  rw [show ([a,b,c] : List Nat).length = 3 from rfl,
    show List.range 3 = [0,1,2] from rfl]
  rw [Option.bind_eq_bind, addFacePre_fresh3 m.topology a b c fuel hva hvb hvc]
  simp only [Option.bind_eq_bind, Option.some_bind, Option.some_bind']
  rw [addFaceRelink_allnew3 m.topology [none,none,none] fuel]
  simp only [Option.bind_eq_bind, Option.some_bind, Option.some_bind']
  rw [addFaceEdges_fresh3 m a b c hab hbc hca]
  simp only [Option.bind_eq_bind, Option.some_bind, Option.some_bind']
  rw [show ([some m.topology.hconn_.length, some (m.topology.hconn_.length + 2),
      some (m.topology.hconn_.length + 4)].get? (3-1))
      = some (some (m.topology.hconn_.length + 4)) from rfl]
  simp only [Option.bind_eq_bind, Option.some_bind, Option.some_bind']
  rw [show ((edges3 m a b c).topology.fconn_ ++ [FaceConnectivity.new]).length - 1
      = m.topology.fconn_.length from by simp [edges3]]
  rw [show ((edges3 m a b c).topology.fconn_ ++ [FaceConnectivity.new]).set
        m.topology.fconn_.length ⟨some (m.topology.hconn_.length + 4)⟩
      = m.topology.fconn_ ++ [⟨some (m.topology.hconn_.length + 4)⟩] from by
    rw [set_append_at (edges3 m a b c).topology.fconn_ [FaceConnectivity.new] _
        m.topology.fconn_.length 0 (by simp [edges3])]
    rfl]
  rw [show (⟨⟨(edges3 m a b c).topology.vconn_, (edges3 m a b c).topology.hconn_,
         m.topology.fconn_ ++ [⟨some (m.topology.hconn_.length + 4)⟩]⟩,
       ⟨(edges3 m a b c).properties.vprop_, (edges3 m a b c).properties.hprop_,
        (edges3 m a b c).properties.eprop_,
        (edges3 m a b c).properties.fprop_.push⟩⟩ : Mesh)
      = face3mesh m a b c m.topology.vconn_ none none none from rfl]
  rw [show List.replicate 3 false = [false, false, false] from rfl]
  rw [addFaceSetup_fresh3 m a b c [false, false, false] hva hvb hvc hab hbc hca hL]
  simp only [Option.bind_eq_bind, Option.some_bind, Option.some_bind']
  cases hc : commitCache (face3mesh m a b c (vc3 m a b c)
      (some m.topology.fconn_.length) (some m.topology.fconn_.length)
      (some m.topology.fconn_.length)).topology
      (cache3 m.topology.hconn_.length) with
  | none => rfl
  | some t5 =>
    simp only [Option.some_bind, Option.some_bind']
    rw [show ([false, false, false] : List Bool) = List.replicate 3 false from rfl,
      adjustPhase_allfalse [a,b,c] 3 fuel [0,1,2]
        (by intro i hi; fin_cases hi <;> omega) t5]
    rfl

/-- If the first requested edge `x → y` already carries a face — reachable
from `halfedge(x)` in one clockwise step — `add_face` rejects the triple and
hands back the mesh unchanged. -/
theorem add_face_found_face_rejected (m1 : Mesh) (x y z : Nat)
    (g gin w F : Nat) (fuel2 : Nat) (hfuel : 2 ≤ fuel2)
    (hvx : m1.topology.vconn_.get? x = some ⟨some g⟩)
    (hgodd : g % 2 = 1)
    (cg : HalfedgeConnectivity)
    (hcg : m1.topology.hconn_.get? g = some cg)
    (hcgf : cg.face_ = none) (hcgv : cg.vertex_ = some w) (hwy : w ≠ y)
    (cp : HalfedgeConnectivity)
    (hcp : m1.topology.hconn_.get? (g-1) = some cp)
    (hcpn : cp.next_halfedge_ = some gin) (hging : gin ≠ g)
    (cin : HalfedgeConnectivity)
    (hcin : m1.topology.hconn_.get? gin = some cin)
    (hcinv : cin.vertex_ = some y) (hcinf : cin.face_ = some F) :
    m1.add_face [x, y, z] fuel2 = some (none, m1) := by
  obtain ⟨f2, rfl⟩ : ∃ f2, fuel2 = f2 + 2 := ⟨fuel2 - 2, by omega⟩
  have hhx : m1.topology.halfedge (some x) = some (some g) := by
    unfold Topology.halfedge
    rw [Option.bind_eq_bind, Option.some_bind, Option.bind_eq_bind, hvx,
      Option.some_bind]
    rfl
  have hface_g : m1.topology.face (some g) = some none := by
    unfold Topology.face
    rw [Option.bind_eq_bind, Option.some_bind, Option.bind_eq_bind, hcg,
      Option.some_bind, hcgf]
    rfl
  have hface_in : m1.topology.face (some gin) = some (some F) := by
    unfold Topology.face
    rw [Option.bind_eq_bind, Option.some_bind, Option.bind_eq_bind, hcin,
      Option.some_bind, hcinf]
    rfl
  have hb : m1.topology.is_boundary_vertex (some x) = some true := by
    unfold Topology.is_boundary_vertex
    rw [Option.bind_eq_bind, hhx, Option.some_bind]
    show (Option.bind (m1.topology.face (some g)) fun r => pure r.isNone)
      = some true
    rw [hface_g, Option.some_bind']
    rfl
  have hfind : m1.topology.find_halfedge (some x) (some y) (f2+2)
      = some (some gin) := by
    unfold Topology.find_halfedge
    rw [Option.bind_eq_bind, hhx, Option.some_bind]
    show m1.topology.find_halfedge_loop (some y) (some g) (some g) (f2+2)
      = some (some gin)
    have hv1 : m1.topology.to_vertex (some g) = some (some w) := by
      unfold Topology.to_vertex
      rw [Option.bind_eq_bind, Option.some_bind, Option.bind_eq_bind, hcg,
        Option.some_bind, hcgv]
      rfl
    have hv2 : m1.topology.to_vertex (some gin) = some (some y) := by
      unfold Topology.to_vertex
      rw [Option.bind_eq_bind, Option.some_bind, Option.bind_eq_bind, hcin,
        Option.some_bind, hcinv]
      rfl
    have hopp : m1.topology.opposite_halfedge (some g) = some (some (g-1)) := by
      unfold Topology.opposite_halfedge
      rw [Option.bind_eq_bind, Option.some_bind, if_pos hgodd]
      rfl
    have hnxt : m1.topology.next_halfedge (some (g-1)) = some (some gin) := by
      unfold Topology.next_halfedge
      rw [Option.bind_eq_bind, Option.some_bind, Option.bind_eq_bind, hcp,
        Option.some_bind, hcpn]
      rfl
    have hcw : m1.topology.cw_rotated_halfedge (some g) = some (some gin) := by
      unfold Topology.cw_rotated_halfedge
      rw [Option.bind_eq_bind, hopp, Option.some_bind, hnxt]
    unfold Topology.find_halfedge_loop
    rw [Option.bind_eq_bind, hv1, Option.some_bind,
      if_neg (show ¬ ((some w : Hnd) = some y) by
        intro h
        exact hwy (Option.some.injEq w y ▸ h)),
      hcw, Option.some_bind',
      if_neg (show ¬ ((some gin : Hnd) = some g) by
        intro h
        exact hging (Option.some.injEq gin g ▸ h))]
    unfold Topology.find_halfedge_loop
    rw [Option.bind_eq_bind, hv2, Option.some_bind, if_pos rfl]
    rfl
  have hbd : m1.topology.is_boundary_halfedge (some gin) = some false := by
    unfold Topology.is_boundary_halfedge
    show (Option.bind (m1.topology.face (some gin)) fun r => pure r.isNone)
      = some false
    rw [hface_in, Option.some_bind']
    rfl
  have hpre : addFacePre m1.topology [x,y,z] 3 (f2+2) [0,1,2] = some none := by
    unfold addFacePre
    rw [show ([x,y,z].get? 0) = some x from rfl, Option.bind_eq_bind,
      Option.some_bind, hb]
    simp only [Option.bind_eq_bind, Option.some_bind, Bool.not_true,
      Bool.false_eq_true, if_false]
    rw [show ((0+1) % 3) = 1 from rfl, show ([x,y,z].get? 1) = some y from rfl,
      Option.some_bind, hfind, Option.some_bind]
    simp only [Option.bind_eq_bind, Option.pure_def, Option.some_bind,
      Option.some_bind', hbd, Bool.not_false, reduceIte]
  unfold Mesh.add_face
  rw [show ([x,y,z] : List Nat).length = 3 from rfl,
    show List.range 3 = [0,1,2] from rfl, Option.bind_eq_bind, hpre,
    Option.some_bind]
  rfl

/-- Sources in `cache3` are unique; the inner halfedge `L` re-links to `L+2`,
`L+2` to `L+4`, and `L+4` back to `L`. -/
theorem cache3_unique_0 (L : Nat) :
    ∀ p ∈ cache3 L, p.1 = some L → p.2 = some (L+2) := by
  intro p hp hsrc
  simp only [cache3, List.mem_cons, List.not_mem_nil, or_false] at hp
  rcases hp with rfl|rfl|rfl|rfl|rfl|rfl <;>
    simp only [Option.some.injEq] at hsrc ⊢ <;> omega

theorem cache3_unique_2 (L : Nat) :
    ∀ p ∈ cache3 L, p.1 = some (L+2) → p.2 = some (L+4) := by
  intro p hp hsrc
  simp only [cache3, List.mem_cons, List.not_mem_nil, or_false] at hp
  rcases hp with rfl|rfl|rfl|rfl|rfl|rfl <;>
    simp only [Option.some.injEq] at hsrc ⊢ <;> omega

theorem cache3_unique_4 (L : Nat) :
    ∀ p ∈ cache3 L, p.1 = some (L+4) → p.2 = some L := by
  intro p hp hsrc
  simp only [cache3, List.mem_cons, List.not_mem_nil, or_false] at hp
  rcases hp with rfl|rfl|rfl|rfl|rfl|rfl <;>
    simp only [Option.some.injEq] at hsrc ⊢ <;> omega

/-- The pre-commit cell at offset `k` of the fresh triangle. -/
theorem setup3_cell (m : Mesh) (a b c : Nat) (k : Nat) (cell : HalfedgeConnectivity)
    (hk : (hc6 a b c (some m.topology.fconn_.length) (some m.topology.fconn_.length)
        (some m.topology.fconn_.length)).get? k = some cell) :
    (face3mesh m a b c (vc3 m a b c) (some m.topology.fconn_.length)
        (some m.topology.fconn_.length)
        (some m.topology.fconn_.length)).topology.hconn_.get?
        (m.topology.hconn_.length + k) = some cell := by
  show (m.topology.hconn_ ++ hc6 a b c (some m.topology.fconn_.length)
      (some m.topology.fconn_.length) (some m.topology.fconn_.length)).get?
      (m.topology.hconn_.length + k) = some cell
  rw [get?_append_at _ _ _ k rfl]
  exact hk

/-- All facts about the committed topology `t5` needed to reject the cyclic
re-insertions: the vertex rows of the three face vertices, the vertex and
face fields of all six new cells, and the `next` links of the inner cells. -/
theorem commit_fresh3_facts (m : Mesh) (a b c : Nat) (t5 : Topology)
    (hc : commitCache (face3mesh m a b c (vc3 m a b c)
        (some m.topology.fconn_.length) (some m.topology.fconn_.length)
        (some m.topology.fconn_.length)).topology
        (cache3 m.topology.hconn_.length) = some t5) :
    t5.vconn_ = vc3 m a b c
    ∧ (∃ c0, t5.hconn_.get? m.topology.hconn_.length = some c0
        ∧ c0.vertex_ = some b ∧ c0.face_ = some m.topology.fconn_.length
        ∧ c0.next_halfedge_ = some (m.topology.hconn_.length + 2))
    ∧ (∃ c1, t5.hconn_.get? (m.topology.hconn_.length + 1) = some c1
        ∧ c1.vertex_ = some a ∧ c1.face_ = none)
    ∧ (∃ c2, t5.hconn_.get? (m.topology.hconn_.length + 2) = some c2
        ∧ c2.vertex_ = some c ∧ c2.face_ = some m.topology.fconn_.length
        ∧ c2.next_halfedge_ = some (m.topology.hconn_.length + 4))
    ∧ (∃ c3, t5.hconn_.get? (m.topology.hconn_.length + 3) = some c3
        ∧ c3.vertex_ = some b ∧ c3.face_ = none)
    ∧ (∃ c4, t5.hconn_.get? (m.topology.hconn_.length + 4) = some c4
        ∧ c4.vertex_ = some a ∧ c4.face_ = some m.topology.fconn_.length
        ∧ c4.next_halfedge_ = some m.topology.hconn_.length)
    ∧ (∃ c5, t5.hconn_.get? (m.topology.hconn_.length + 5) = some c5
        ∧ c5.vertex_ = some c ∧ c5.face_ = none) := by
  have hvf := commitCache_vertex_face (cache3 m.topology.hconn_.length) _ t5 hc
  have hget0 := setup3_cell m a b c 0 _ rfl
  have hget1 := setup3_cell m a b c 1 _ rfl
  have hget2 := setup3_cell m a b c 2 _ rfl
  have hget3 := setup3_cell m a b c 3 _ rfl
  have hget4 := setup3_cell m a b c 4 _ rfl
  have hget5 := setup3_cell m a b c 5 _ rfl
  rw [show m.topology.hconn_.length + 0 = m.topology.hconn_.length from by omega]
    at hget0
  refine ⟨(commitCache_vf (cache3 m.topology.hconn_.length) _ t5 hc).1, ?_, ?_, ?_, ?_, ?_, ?_⟩
  · obtain ⟨c0', hg, hv, hf⟩ := hvf _ _ hget0
    obtain ⟨c0'', hg', hn⟩ := commitCache_next (cache3 m.topology.hconn_.length) _ t5 hc
      m.topology.hconn_.length (some (m.topology.hconn_.length + 2))
      (by simp [cache3]) (cache3_unique_0 m.topology.hconn_.length)
    rw [hg] at hg'
    obtain rfl : c0' = c0'' := by
      simpa using hg'
    exact ⟨c0', hg, hv, hf, hn⟩
  · obtain ⟨c1', hg, hv, hf⟩ := hvf _ _ hget1
    exact ⟨c1', hg, hv, hf⟩
  · obtain ⟨c2', hg, hv, hf⟩ := hvf _ _ hget2
    obtain ⟨c2'', hg', hn⟩ := commitCache_next (cache3 m.topology.hconn_.length) _ t5 hc
      (m.topology.hconn_.length + 2) (some (m.topology.hconn_.length + 4))
      (by simp [cache3]) (cache3_unique_2 m.topology.hconn_.length)
    rw [hg] at hg'
    obtain rfl : c2' = c2'' := by
      simpa using hg'
    exact ⟨c2', hg, hv, hf, hn⟩
  · obtain ⟨c3', hg, hv, hf⟩ := hvf _ _ hget3
    exact ⟨c3', hg, hv, hf⟩
  · obtain ⟨c4', hg, hv, hf⟩ := hvf _ _ hget4
    obtain ⟨c4'', hg', hn⟩ := commitCache_next (cache3 m.topology.hconn_.length) _ t5 hc
      (m.topology.hconn_.length + 4) (some m.topology.hconn_.length)
      (by simp [cache3]) (cache3_unique_4 m.topology.hconn_.length)
    rw [hg] at hg'
    obtain rfl : c4' = c4'' := by
      simpa using hg'
    exact ⟨c4', hg, hv, hf, hn⟩
  · obtain ⟨c5', hg, hv, hf⟩ := hvf _ _ hget5
    exact ⟨c5', hg, hv, hf⟩

theorem vc3_get_a (m : Mesh) (a b c : Nat)
    (hva : m.topology.vconn_.get? a = some ⟨none⟩)
    (hab : a ≠ b) (hca : c ≠ a) :
    (vc3 m a b c).get? a = some ⟨some (m.topology.hconn_.length + 5)⟩ := by
  unfold vc3
  rw [List.get?_set_eq, List.get?_set_ne _ _ hca,
    List.get?_set_ne _ _ (fun h => hab h.symm), hva]
  rfl

theorem vc3_get_b (m : Mesh) (a b c : Nat)
    (hvb : m.topology.vconn_.get? b = some ⟨none⟩)
    (hab : a ≠ b) (hbc : b ≠ c) :
    (vc3 m a b c).get? b = some ⟨some (m.topology.hconn_.length + 1)⟩ := by
  unfold vc3
  rw [List.get?_set_ne _ _ hab, List.get?_set_ne _ _ (fun h => hbc h.symm),
    List.get?_set_eq, hvb]
  rfl

theorem vc3_get_c (m : Mesh) (a b c : Nat)
    (hvc : m.topology.vconn_.get? c = some ⟨none⟩)
    (hbc : b ≠ c) (hca : c ≠ a) :
    (vc3 m a b c).get? c = some ⟨some (m.topology.hconn_.length + 3)⟩ := by
  unfold vc3
  rw [List.get?_set_ne _ _ (fun h => hca h.symm), List.get?_set_eq,
    List.get?_set_ne _ _ hbc, hvc]
  rfl

/-- Claim C4 (corrected): take any mesh and three pairwise-distinct fresh
vertices `a`, `b`, `c` (no outgoing halfedge yet, exactly as `add_vertex`
creates them; the mesh has evenly many halfedges, as always holds since
halfedges exist in opposite pairs).  After a successful
`add_face([a,b,c]) = some f`, calling `add_face` again with any cyclic
rotation of the same identically-oriented sequence returns `none` and hands
back the mesh unchanged, so the face count is unchanged too.
Orientation-reversing permutations are not rejected in general: on a single
open triangle the reversed sequence succeeds (see the counterexample
theorem), and on corrupted vertex→halfedge states even an exact cyclic
re-insertion can succeed, so the freshness premise is necessary. -/
theorem add_face_cyclic_rotation_rejected (m : Mesh) (a b c : Nat)
    (fuel fuel2 : Nat) (f : Nat) (m1 : Mesh)
    (hva : m.topology.vconn_.get? a = some ⟨none⟩)
    (hvb : m.topology.vconn_.get? b = some ⟨none⟩)
    (hvc : m.topology.vconn_.get? c = some ⟨none⟩)
    (hab : a ≠ b) (hbc : b ≠ c) (hca : c ≠ a)
    (hL : m.topology.hconn_.length % 2 = 0)
    (hfuel2 : 2 ≤ fuel2)
    (hadd : m.add_face [a,b,c] fuel = some (some f, m1)) :
    m1.add_face [a,b,c] fuel2 = some (none, m1)
    ∧ m1.add_face [b,c,a] fuel2 = some (none, m1)
    ∧ m1.add_face [c,a,b] fuel2 = some (none, m1) := by
  rw [add_face_fresh3 m a b c fuel hva hvb hvc hab hbc hca hL] at hadd
  cases hc : commitCache (face3mesh m a b c (vc3 m a b c)
      (some m.topology.fconn_.length) (some m.topology.fconn_.length)
      (some m.topology.fconn_.length)).topology
      (cache3 m.topology.hconn_.length) with
  | none =>
    rw [hc] at hadd
    exact absurd hadd (by simp)
  | some t5 =>
    rw [hc, Option.some_bind'] at hadd
    simp only [Option.some.injEq, Prod.mk.injEq] at hadd
    obtain ⟨hf, hm⟩ := hadd
    obtain ⟨hvcn, ⟨c0, hg0, hv0, hf0, hn0⟩, ⟨c1, hg1, hv1, hf1⟩,
      ⟨c2, hg2, hv2, hf2, hn2⟩, ⟨c3, hg3, hv3, hf3⟩,
      ⟨c4, hg4, hv4, hf4, hn4⟩, ⟨c5, hg5, hv5, hf5⟩⟩ :=
      commit_fresh3_facts m a b c t5 hc
    subst hm
    refine ⟨?_, ?_, ?_⟩
    · refine add_face_found_face_rejected _ a b c
        (m.topology.hconn_.length + 5) m.topology.hconn_.length c
        m.topology.fconn_.length fuel2 hfuel2 ?_ (by omega) c5 hg5 hf5 hv5
        (fun h => hbc h.symm) c4 ?_ hn4 (by omega) c0 hg0 hv0 hf0
      · show t5.vconn_.get? a
            = some ⟨some (m.topology.hconn_.length + 5)⟩
        rw [hvcn, vc3_get_a m a b c hva hab hca]
      · show t5.hconn_.get? (m.topology.hconn_.length + 5 - 1) = some c4
        rw [show m.topology.hconn_.length + 5 - 1
            = m.topology.hconn_.length + 4 from by omega]
        exact hg4
    · refine add_face_found_face_rejected _ b c a
        (m.topology.hconn_.length + 1) (m.topology.hconn_.length + 2) a
        m.topology.fconn_.length fuel2 hfuel2 ?_ (by omega) c1 hg1 hf1 hv1
        (fun h => hca h.symm) c0 ?_ hn0 (by omega) c2 hg2 hv2 hf2
      · show t5.vconn_.get? b
            = some ⟨some (m.topology.hconn_.length + 1)⟩
        rw [hvcn, vc3_get_b m a b c hvb hab hbc]
      · show t5.hconn_.get? (m.topology.hconn_.length + 1 - 1) = some c0
        rw [show m.topology.hconn_.length + 1 - 1
            = m.topology.hconn_.length from by omega]
        exact hg0
    · refine add_face_found_face_rejected _ c a b
        (m.topology.hconn_.length + 3) (m.topology.hconn_.length + 4) b
        m.topology.fconn_.length fuel2 hfuel2 ?_ (by omega) c3 hg3 hf3 hv3
        (fun h => hab h.symm) c2 ?_ hn2 (by omega) c4 hg4 hv4 hf4
      · show t5.vconn_.get? c
            = some ⟨some (m.topology.hconn_.length + 3)⟩
        rw [hvcn, vc3_get_c m a b c hvc hbc hca]
      · show t5.hconn_.get? (m.topology.hconn_.length + 3 - 1) = some c2
        rw [show m.topology.hconn_.length + 3 - 1
            = m.topology.hconn_.length + 2 from by omega]
        exact hg2

/-- Witness for C4 at the single-triangle instance: the three fresh vertices
of `Mesh.new.add_vertices 3` accept the face `[0,1,2]`, and all three cyclic
rotations are then rejected with the mesh unchanged. -/
theorem add_face_cyclic_rotation_rejected_witness :
    (Mesh.new.add_vertices 3).1.add_face [0,1,2] 100 = some (some 0, triMesh)
    ∧ (triMesh.add_face [0,1,2] 100 = some (none, triMesh)
       ∧ triMesh.add_face [1,2,0] 100 = some (none, triMesh)
       ∧ triMesh.add_face [2,0,1] 100 = some (none, triMesh)) :=
  ⟨by decide,
   add_face_cyclic_rotation_rejected (Mesh.new.add_vertices 3).1 0 1 2 100 100 0
     triMesh (by decide) (by decide) (by decide) (by decide) (by decide)
     (by decide) (by decide) (by decide) (by decide)⟩

/-- A mesh whose vertex→halfedge pointers are corrupted: vertices 0, 1, 2
each point at a halfedge that is not outgoing from them; the pointed cells
form closed two-cell orbits under `opposite`/`next`, and cells 6, 7 are an
unreferenced sink. -/
def corruptMesh : Mesh :=
  ⟨⟨[⟨some 0⟩, ⟨some 2⟩, ⟨some 4⟩, ⟨none⟩],
    [⟨some 3, none, some 1, some 6⟩, ⟨some 3, none, some 0, some 1⟩,
     ⟨some 3, none, some 3, some 6⟩, ⟨some 3, none, some 2, some 3⟩,
     ⟨some 3, none, some 5, some 6⟩, ⟨some 3, none, some 4, some 5⟩,
     ⟨some 3, none, some 7, some 7⟩, ⟨some 3, none, some 6, some 6⟩],
    []⟩, Properties.new⟩

def corruptMesh1 : Mesh :=
  ((corruptMesh.add_face [0,1,2] 100).map (fun r => r.2)).getD Mesh.new

def corruptMesh2 : Mesh :=
  ((corruptMesh1.add_face [1,2,0] 100).map (fun r => r.2)).getD Mesh.new

/-- Without the freshness premise the cyclic-rotation rejection fails: on
`corruptMesh` the face `[0,1,2]` is accepted, and afterwards the cyclic
rotation `[1,2,0]` of the very same oriented sequence is accepted again,
raising the face count to 2 — the circulations around the corrupted
vertices never reach the face's halfedges. -/
theorem add_face_cyclic_rotation_corrupt_succeeds :
    corruptMesh.add_face [0,1,2] 100 = some (some 0, corruptMesh1)
    ∧ corruptMesh1.add_face [1,2,0] 100 = some (some 1, corruptMesh2)
    ∧ corruptMesh1.topology.n_faces = 1
    ∧ corruptMesh2.topology.n_faces = 2 :=
  ⟨by decide, by decide, by decide, by decide⟩

end LwMesh
